import Mathlib

/-!
Verification development for the release-planning core of cargo-dist
(`src/cargo-dist/src/tasks.rs`): a shallow embedding of the entity store,
the graph-builder operations, the build-step compiler and the tag resolver,
together with theorems settling the spec's claims about them.

Conventions of the embedding:
* Rust `String` is Lean `String`; all string manipulation is re-implemented
  structurally over `List Char` so that every definition reduces in the kernel.
* Arena indices (`BinaryIdx`, `ArtifactIdx`, ...) are `Nat`.
* `HashMap`/`BTreeMap` are association lists; a `BTreeMap` keeps its keys
  sorted by an explicit comparison function (`insertGrouped`).
* Fallible code returns `Except`/`Option`; a Rust index expression that can
  panic is modelled with `List.get?`/`List.getD` as noted at each site.
* Types that live outside `tasks.rs` (the `config` and `backend::installer`
  modules are not part of the staged sources) are modelled from the spec's
  description of them, as noted in their doc comments.
-/

namespace CargoDist

/-! ## String utilities (structural re-implementations) -/

/-- Lexicographic strict order on character lists, by code point.
Used only to keep `BTreeMap` keys in a deterministic order. -/
def listCharLt : List Char → List Char → Bool
  | [], [] => false
  | [], _ :: _ => true
  | _ :: _, [] => false
  | a :: as, b :: bs =>
    if a.toNat < b.toNat then true
    else if b.toNat < a.toNat then false
    else listCharLt as bs

/-- Strict order on strings (deterministic `BTreeMap` key order). -/
def strLtB (a b : String) : Bool := listCharLt a.toList b.toList

/-- Substring containment on character lists: some tail of `l` starts with `pat`. -/
def listContainsSub (pat l : List Char) : Bool :=
  l.tails.any (fun t => pat.isPrefixOf t)

/-- Rust `str::contains` (substring search). -/
def strContains (s pat : String) : Bool := listContainsSub pat.toList s.toList

/-- Rust `str::starts_with`. -/
def strStartsWith (s p : String) : Bool := p.toList.isPrefixOf s.toList

/-- Rust `str::ends_with`. -/
def strEndsWith (s p : String) : Bool := p.toList.isSuffixOf s.toList

/-- Drop the first `n` characters of a string. -/
def strDrop (s : String) (n : Nat) : String := (s.toList.drop n).asString

/-- Rust `str::strip_prefix`: `some rest` when `s` starts with `p`. -/
def stripPre (p s : String) : Option String :=
  if strStartsWith s p then some (strDrop s p.length) else none

/-- Rust `str::rsplit_once(c)`: split around the last occurrence of `c`. -/
def rsplitOnceChar (c : Char) (s : String) : Option (String × String) :=
  let l := s.toList
  let suffixRev := l.reverse.takeWhile (fun x => x ≠ c)
  if suffixRev.length = l.length then none
  else some ((l.take (l.length - suffixRev.length - 1)).asString, suffixRev.reverse.asString)

/-- Model of `camino::Utf8Path::join` (the path library is an external crate):
paths are plain strings glued with `/`. -/
def pathJoin (a b : String) : String := a ++ "/" ++ b

/-- Model of `camino::Utf8Path::file_name` (external crate): the part after the
last `/`, or the whole string when there is none. -/
def fileNameOf (s : String) : String :=
  match rsplitOnceChar '/' s with
  | some (_, suffix) => suffix
  | none => s

/-- Model of `camino::Utf8Path::parent` (external crate): the part before the
last `/`, or `""` when there is none (the sources `unwrap()` the parent). -/
def parentDir (s : String) : String :=
  match rsplitOnceChar '/' s with
  | some (pre, _) => pre
  | none => ""

/-- Comma-joined list of names, mirroring the `multi_package` loop of `tag_help`. -/
def commaJoin : List String → String
  | [] => ""
  | n :: rest => n ++ String.join (rest.map (fun x => ", " ++ x))

/-! ## Versions

`semver::Version` is an external crate; the core only ever compares versions
for equality, asks whether `pre` is empty, orders them inside a `BTreeMap`
and formats them. We model exactly that surface. -/

/-- Model of `semver::Version` (external crate): numeric triple plus the
prerelease component (`""` when absent). Build metadata is not modelled:
the core never inspects it. -/
structure Version where
  major : Nat
  minor : Nat
  patch : Nat
  pre : String
deriving DecidableEq, Repr

instance : Inhabited Version := ⟨⟨0, 0, 0, ""⟩⟩

/-- `format!("{version}")` for the modelled `Version`. -/
def vToString (v : Version) : String :=
  toString v.major ++ "." ++ toString v.minor ++ "." ++ toString v.patch ++
    (if v.pre = "" then "" else "-" ++ v.pre)

/-- Deterministic strict order on modelled versions (stands in for the
`Ord` instance `possible_tags`' `BTreeMap` sorts by; the claims depend only
on its induced equality classes). -/
def versionLtB (a b : Version) : Bool :=
  if a.major ≠ b.major then a.major < b.major
  else if a.minor ≠ b.minor then a.minor < b.minor
  else if a.patch ≠ b.patch then a.patch < b.patch
  else strLtB a.pre b.pre

/-! ## Configuration enums

These types live in `src/cargo-dist/src/config.rs`, which is not among the
staged sources; they are modelled from the spec ("archive-format choices,
checksum style, install-path strategy, artifact-mode scope"). -/

/-- Modelled from the spec: compression kinds for tarballs. -/
inductive CompressionImpl
  | gzip
  | xzip
  | zstd
deriving DecidableEq, Repr

/-- Modelled from the spec: the archive format of an artifact (`ZipStyle`
in `config.rs`). `tempDir` is the "not really an archive" style MSI uses. -/
inductive ZipStyle
  | zip
  | tar (c : CompressionImpl)
  | tempDir
deriving DecidableEq, Repr

/-- Modelled from the spec: `ZipStyle::ext` — the file extension of the style. -/
def ZipStyle.ext : ZipStyle → String
  | .zip => ".zip"
  | .tar .gzip => ".tar.gz"
  | .tar .xzip => ".tar.xz"
  | .tar .zstd => ".tar.zstd"
  | .tempDir => ""

/-- Modelled from the spec: style of checksum to produce (`ChecksumStyle`
in `config.rs`). `false_` is the "no checksums" setting. -/
inductive ChecksumStyle
  | sha256
  | sha512
  | false_
deriving DecidableEq, Repr

/-- Modelled from the spec: `ChecksumStyle::ext` — the checksum file extension. -/
def ChecksumStyle.ext : ChecksumStyle → String
  | .sha256 => "sha256"
  | .sha512 => "sha512"
  | .false_ => "false"

/-- Modelled from the spec: run-time scope selecting whether local, global,
host-only, or all artifacts are produced (`ArtifactMode` in `config.rs`). -/
inductive ArtifactMode
  | local
  | global
  | host
  | all
deriving DecidableEq, Repr

/-- `DistGraphBuilder::local_artifacts_enabled` (tasks.rs). -/
def local_artifacts_enabled : ArtifactMode → Bool
  | .local => true
  | .global => false
  | .host => true
  | .all => true

/-- `DistGraphBuilder::global_artifacts_enabled` (tasks.rs). -/
def global_artifacts_enabled : ArtifactMode → Bool
  | .local => false
  | .global => true
  | .host => true
  | .all => true

/-- Modelled from the spec: strategy for selecting paths to install to
(`InstallPathStrategy` in `config.rs`); the core only copies it around. -/
inductive InstallPathStrategy
  | cargoHome
  | homeSubdir (subdir : String)
  | envSubdir (env : String)
deriving DecidableEq, Repr

/-! ## Core data model (tasks.rs) -/

/-- `SymbolKind` (tasks.rs): a kind of symbols (debuginfo). -/
inductive SymbolKind
  | pdb
  | dsym
  | dwp
deriving DecidableEq, Repr

/-- `SymbolKind::ext` (tasks.rs). -/
def SymbolKind.ext : SymbolKind → String
  | .pdb => "pdb"
  | .dsym => "dSYM"
  | .dwp => "dwp"

/-- `CargoTargetFeatureList` (tasks.rs): a list of features to build with. -/
inductive CargoTargetFeatureList
  | all
  | list (fs : List String)
deriving DecidableEq, Repr

/-- `Default for CargoTargetFeatureList` (tasks.rs): the empty list. -/
def CargoTargetFeatureList.defaultVal : CargoTargetFeatureList := .list []

/-- `CargoTargetFeatures` (tasks.rs): cargo features a build should use. -/
structure CargoTargetFeatures where
  default_features : Bool
  features : CargoTargetFeatureList
deriving DecidableEq, Repr

/-- `Default for CargoTargetFeatures` via `#[derive(Default)]` semantics:
`bool` defaults to `false`, the list to empty. -/
def CargoTargetFeatures.defaultVal : CargoTargetFeatures :=
  ⟨false, CargoTargetFeatureList.defaultVal⟩

/-- `CargoTargetPackages` (tasks.rs): whether to build a package or the workspace. -/
inductive CargoTargetPackages
  | workspace
  | package (spec : String)
deriving DecidableEq, Repr

/-- `Tool` (tasks.rs): a tool found installed on the system. -/
structure Tool where
  cmd : String
  version : String
deriving DecidableEq, Repr

/-- `Binary` (tasks.rs): a binary we want to build, specific to a Variant.
`pkg_id` stands for the opaque `guppy::PackageId` string. -/
structure Binary where
  id : String
  pkg_id : String
  pkg_spec : String
  name : String
  file_name : String
  target : String
  symbols_artifact : Option Nat
  copy_exe_to : List String
  copy_symbols_to : List String
  features : CargoTargetFeatures
  pkg_idx : Nat
deriving DecidableEq, Repr

instance : Inhabited Binary :=
  ⟨⟨"", "", "", "", "", "", none, [], [], CargoTargetFeatures.defaultVal, 0⟩⟩

/-- `ExecutableZipFragment` (backend/installer, not among the staged sources).
Modelled from the spec: a manifest fragment naming the archive id, the
target platforms it claims, its zip style and its binary file names. -/
structure ExecutableZipFragment where
  id : String
  target_triples : List String
  zip_style : ZipStyle
  binaries : List String
deriving DecidableEq, Repr

/-- `InstallerInfo` (backend/installer, not among the staged sources).
Modelled from the spec: the shared descriptor of an installer ("assembles an
installer-specific descriptor"); every field is filled in by `tasks.rs`.
`install_path` carries the `into_jinja()` rendering as an opaque string. -/
structure InstallerInfo where
  dest_path : String
  app_name : String
  app_version : String
  install_path : String
  base_url : String
  artifacts : List ExecutableZipFragment
  hint : String
  desc : String
deriving DecidableEq, Repr

/-- `HomebrewInstallerInfo` (backend/installer, not among the staged sources).
Modelled from the spec: "Homebrew formula with dependency list"; every
field is filled in by `tasks.rs`. -/
structure HomebrewInstallerInfo where
  arm64 : Option ExecutableZipFragment
  arm64_sha256 : Option String
  x86_64 : Option ExecutableZipFragment
  x86_64_sha256 : Option String
  name : String
  formula_class : String
  desc : Option String
  license : Option String
  homepage : Option String
  tap : Option String
  dependencies : List String
  inner : InstallerInfo
deriving DecidableEq, Repr

/-- `NpmInstallerInfo` (backend/installer, not among the staged sources).
Modelled from the spec: "npm package metadata"; filled in by `tasks.rs`. -/
structure NpmInstallerInfo where
  npm_package_name : String
  npm_package_version : String
  npm_package_desc : Option String
  npm_package_authors : List String
  npm_package_license : Option String
  npm_package_repository_url : Option String
  npm_package_homepage_url : Option String
  npm_package_keywords : Option (List String)
  package_dir : String
  bin : String
  inner : InstallerInfo
deriving DecidableEq, Repr

/-- `MsiInstallerInfo` (backend/installer, not among the staged sources).
Modelled from the spec: "MSI packaging descriptor"; filled in by `tasks.rs`. -/
structure MsiInstallerInfo where
  package_dir : String
  pkg_spec : String
  target : String
  file_path : String
  wxs_path : String
  manifest_path : String
deriving DecidableEq, Repr

/-- `InstallerImpl` (backend/installer, not among the staged sources).
Modelled from the spec: the closed set of the five installer kinds. -/
inductive InstallerImpl
  | shell (info : InstallerInfo)
  | powershell (info : InstallerInfo)
  | npm (info : NpmInstallerInfo)
  | homebrew (info : HomebrewInstallerInfo)
  | msi (info : MsiInstallerInfo)
deriving DecidableEq, Repr

/-- `ChecksumImpl` (tasks.rs): create a checksum of `src_path` at `dest_path`. -/
structure ChecksumImpl where
  checksum : ChecksumStyle
  src_path : String
  dest_path : String
deriving DecidableEq, Repr

/-- `ArtifactKind` (tasks.rs). `executableZip`'s payload struct is empty. -/
inductive ArtifactKind
  | executableZip
  | symbols (kind : SymbolKind)
  | installer (impl_ : InstallerImpl)
  | checksum (impl_ : ChecksumImpl)
deriving DecidableEq, Repr

/-- Whether an `ArtifactKind` is the `Checksum` variant. -/
def ArtifactKind.isChecksumKind : ArtifactKind → Bool
  | .checksum _ => true
  | _ => false

/-- `StaticAssetKind` (tasks.rs). -/
inductive StaticAssetKind
  | readme
  | license
  | changelog
  | other
deriving DecidableEq, Repr

/-- `Archive` (tasks.rs): info about a zip/tarball that should be made. -/
structure Archive where
  with_root : Option String
  dir_path : String
  zip_style : ZipStyle
  static_assets : List (StaticAssetKind × String)
deriving DecidableEq, Repr

/-- `Artifact` (tasks.rs): a distributable artifact we want to build.
`required_binaries` is the `FastMap<BinaryIdx, Utf8PathBuf>` as an
association list. -/
structure Artifact where
  id : String
  target_triples : List String
  archive : Option Archive
  file_path : String
  required_binaries : List (Nat × String)
  kind : ArtifactKind
  checksum : Option Nat
  is_global : Bool
deriving DecidableEq, Repr

instance : Inhabited Artifact :=
  ⟨⟨"", [], none, "", [], ArtifactKind.executableZip, none, false⟩⟩

/-- `Release` (tasks.rs): a logical release artifacts are grouped under.
`system_dependencies` keeps only the Homebrew package names with whether
the dependency is wanted at run stage (what `add_homebrew_installer` reads). -/
structure Release where
  app_name : String
  app_desc : Option String
  app_authors : List String
  app_license : Option String
  app_repository_url : Option String
  app_homepage_url : Option String
  app_keywords : Option (List String)
  version : Version
  id : String
  targets : List String
  bins : List (Nat × String)
  global_artifacts : List Nat
  variants : List Nat
  changelog_body : Option String
  changelog_title : Option String
  windows_archive : ZipStyle
  unix_archive : ZipStyle
  checksum : ChecksumStyle
  npm_scope : Option String
  static_assets : List (StaticAssetKind × String)
  install_path : InstallPathStrategy
  tap : Option String
  system_dependencies : List (String × Bool)
deriving DecidableEq, Repr

instance : Inhabited Release :=
  ⟨⟨"", none, [], none, none, none, none, default, "", [], [], [], [], none, none,
    ZipStyle.zip, ZipStyle.tar CompressionImpl.xzip, ChecksumStyle.sha256, none, [],
    InstallPathStrategy.cargoHome, none, []⟩⟩

/-- `ReleaseVariant` (tasks.rs): a particular variant of a Release. -/
structure ReleaseVariant where
  target : String
  id : String
  binaries : List Nat
  static_assets : List (StaticAssetKind × String)
  local_artifacts : List Nat
deriving DecidableEq, Repr

instance : Inhabited ReleaseVariant := ⟨⟨"", "", [], [], []⟩⟩

/-- `CargoBuildStep` (tasks.rs). -/
structure CargoBuildStep where
  target_triple : String
  features : CargoTargetFeatures
  package : CargoTargetPackages
  profile : String
  rustflags : String
  expected_binaries : List Nat
deriving DecidableEq, Repr

/-- `RustupStep` (tasks.rs). -/
structure RustupStep where
  rustup : Tool
  target : String
deriving DecidableEq, Repr

/-- `ZipDirStep` (tasks.rs). -/
structure ZipDirStep where
  src_path : String
  dest_path : String
  with_root : Option String
  zip_style : ZipStyle
deriving DecidableEq, Repr

/-- `CopyFileStep` (tasks.rs). -/
structure CopyFileStep where
  src_path : String
  dest_path : String
deriving DecidableEq, Repr

/-- `CopyDirStep` (tasks.rs). -/
structure CopyDirStep where
  src_path : String
  dest_path : String
deriving DecidableEq, Repr

/-- `BuildStep` (tasks.rs): a build step we would like to perform. -/
inductive BuildStep
  | cargo (s : CargoBuildStep)
  | rustup (s : RustupStep)
  | copyFile (s : CopyFileStep)
  | copyDir (s : CopyDirStep)
  | zip (s : ZipDirStep)
  | generateInstaller (i : InstallerImpl)
  | checksum (c : ChecksumImpl)
deriving DecidableEq, Repr

/-- A compile/toolchain step: `Cargo` or `Rustup`. -/
def BuildStep.isCompileStep : BuildStep → Bool
  | .cargo _ => true
  | .rustup _ => true
  | _ => false

/-- A packaging step: copy, archive, installer generation or checksumming. -/
def BuildStep.isPackagingStep : BuildStep → Bool
  | .copyFile _ => true
  | .copyDir _ => true
  | .zip _ => true
  | .generateInstaller _ => true
  | .checksum _ => true
  | _ => false

/-- A static-asset copy step. -/
def BuildStep.isCopyStep : BuildStep → Bool
  | .copyFile _ => true
  | .copyDir _ => true
  | _ => false

/-- An archive (`Zip`) step. -/
def BuildStep.isZipStep : BuildStep → Bool
  | .zip _ => true
  | _ => false

/-- `PROFILE_DIST` (tasks.rs): the profile we will build with. -/
def PROFILE_DIST : String := "dist"

/-! ## Workspace inputs

`axoproject::PackageInfo` and the merged `DistMetadata` per-package configs
are external inputs ("already-parsed, not reparsed by the core"); we model
exactly the fields `tasks.rs` reads from them. -/

/-- The slice of `axoproject::PackageInfo` that `tasks.rs` reads (external
input, modelled at the interface boundary per the spec's section 6). -/
structure PackageInfo where
  name : String
  version : Option Version
  description : Option String
  authors : List String
  license : Option String
  repository_url : Option String
  homepage_url : Option String
  keywords : Option (List String)
  binaries : List String
  publish : Bool
  cargo_package_id : Option String
  readme_file : Option String
  changelog_file : Option String
  license_files : List String
deriving DecidableEq, Repr

instance : Inhabited PackageInfo :=
  ⟨⟨"", none, none, [], none, none, none, none, [], true, none, none, none, []⟩⟩

/-- The slice of a merged per-package `DistMetadata` config that the
graph-builder operations read (resolved configuration, an external input). -/
structure PackageMetadata where
  dist : Option Bool
  features : Option (List String)
  all_features : Option Bool
  default_features : Option Bool
  npm_scope : Option String
  install_path : Option InstallPathStrategy
  tap : Option String
  windows_archive : Option ZipStyle
  unix_archive : Option ZipStyle
  checksum : Option ChecksumStyle
  auto_includes : Option Bool
  include_ : Option (List String)
  system_dependencies : List (String × Bool)
deriving DecidableEq, Repr

instance : Inhabited PackageMetadata :=
  ⟨⟨none, none, none, none, none, none, none, none, none, none, none, none, []⟩⟩

/-- A workspace as the graph builder sees it: package infos with their
merged per-package configs, in `PackageIdx` order. -/
structure Workspace where
  packages : List (PackageInfo × PackageMetadata)
deriving DecidableEq, Repr

/-- `workspace.package(idx)` — the sources index the arena directly. -/
def Workspace.pkg (ws : Workspace) (idx : Nat) : PackageInfo :=
  ((ws.packages.getD idx default).1)

/-- `package_metadata(idx)` — the sources index the arena directly. -/
def Workspace.meta (ws : Workspace) (idx : Nat) : PackageMetadata :=
  ((ws.packages.getD idx default).2)

/-! ## The entity store and the graph-builder operations -/

/-- The arenas of `DistGraph` that the builder operations grow, together
with the builder's `binaries_by_id` dedup map (an association list). -/
structure Store where
  binaries : List Binary
  artifacts : List Artifact
  variants : List ReleaseVariant
  releases : List Release
  binaries_by_id : List (String × Nat)
deriving DecidableEq, Repr

/-- The empty store a fresh `DistGraphBuilder` starts from. -/
def Store.empty : Store := ⟨[], [], [], [], []⟩

/-- `FastMap::get` on an association list. -/
def lookupAssoc (m : List (String × Nat)) (k : String) : Option Nat :=
  (m.find? (fun p => p.1 = k)).map (fun p => p.2)

/-- `DistGraphBuilder::add_release` (tasks.rs, lines 794-873): create a
`Release` for a package, copying identity, static assets and per-release
configuration forward. Returns the new store and the `ReleaseIdx`.
Note that the id pushed into the store is `app_name` alone (line 845),
while the `Release::id` doc comment advertises `"my-app-v1.0.0"`. -/
def add_release (ws : Workspace) (st : Store) (pkg_idx : Nat) : Store × Nat :=
  let package_info := ws.pkg pkg_idx
  let package_config := ws.meta pkg_idx
  let version := package_info.version.getD default
  let app_name := package_info.name
  let npm_scope := package_config.npm_scope
  let install_path := package_config.install_path.getD InstallPathStrategy.cargoHome
  let tap := package_config.tap
  let windows_archive := package_config.windows_archive.getD ZipStyle.zip
  let unix_archive := package_config.unix_archive.getD (ZipStyle.tar CompressionImpl.xzip)
  let checksum := package_config.checksum.getD ChecksumStyle.sha256
  let auto_includes_enabled := package_config.auto_includes.getD true
  let static_assets :=
    (if auto_includes_enabled then
      (match package_info.readme_file with
        | some readme => [(StaticAssetKind.readme, readme)]
        | none => []) ++
      (match package_info.changelog_file with
        | some changelog => [(StaticAssetKind.changelog, changelog)]
        | none => []) ++
      package_info.license_files.map (fun l => (StaticAssetKind.license, l))
    else []) ++
    ((package_config.include_.getD []).map (fun a => (StaticAssetKind.other, a)))
  let system_dependencies := package_config.system_dependencies
  let idx := st.releases.length
  let id := app_name
  let release : Release :=
    { app_name := app_name
      app_desc := package_info.description
      app_authors := package_info.authors
      app_license := package_info.license
      app_repository_url := package_info.repository_url
      app_homepage_url := package_info.homepage_url
      app_keywords := package_info.keywords
      version := version
      id := id
      global_artifacts := []
      bins := []
      targets := []
      variants := []
      changelog_body := none
      changelog_title := none
      windows_archive := windows_archive
      unix_archive := unix_archive
      static_assets := static_assets
      checksum := checksum
      npm_scope := npm_scope
      install_path := install_path
      tap := tap
      system_dependencies := system_dependencies }
  ({ st with releases := st.releases ++ [release] }, idx)

/-- `DistGraphBuilder::add_binary` (tasks.rs): register a binary name as
belonging to a release. -/
def add_binary (st : Store) (to_release : Nat) (pkg_idx : Nat) (binary_name : String) :
    Store :=
  let release := st.releases.getD to_release default
  { st with releases :=
      st.releases.set to_release { release with bins := release.bins ++ [(pkg_idx, binary_name)] } }

/-- `DistGraphBuilder::add_variant` (tasks.rs, lines 875-957): create a
`ReleaseVariant` and, for each declared binary of the release, look the
derived binary id up in `binaries_by_id`, creating a fresh `Binary` on a
miss. Faithful to the sources, nothing is ever inserted into
`binaries_by_id` (it is created empty in `new` and only read here), so the
lookup never hits. -/
def add_variant (ws : Workspace) (st : Store) (to_release : Nat) (target : String) :
    Store × Nat :=
  let idx := st.variants.length
  let release := st.releases.getD to_release default
  let release_id := release.id
  let static_assets := release.static_assets
  let id := release_id ++ "-" ++ target
  let release' := { release with
    variants := release.variants ++ [idx]
    targets := release.targets ++ [target] }
  let st := { st with releases := st.releases.set to_release release' }
  let step := fun (acc : Store × List Nat) (pb : Nat × String) =>
    let (st, binaries) := acc
    let package := ws.pkg pb.1
    let package_metadata := ws.meta pb.1
    let version := package.version.getD default
    let pkg_id := package.cargo_package_id.getD ""
    let pkg_spec := package.name
    let bin_id := pb.2 ++ "-v" ++ vToString version ++ "-" ++ target
    match lookupAssoc st.binaries_by_id bin_id with
    | some bidx => (st, binaries ++ [bidx])
    | none =>
      let features : CargoTargetFeatures :=
        { default_features := package_metadata.default_features.getD true
          features :=
            if package_metadata.all_features = some true then CargoTargetFeatureList.all
            else CargoTargetFeatureList.list (package_metadata.features.getD []) }
      let target_is_windows := strContains target "windows"
      let platform_exe_ext := if target_is_windows then ".exe" else ""
      let file_name := pb.2 ++ platform_exe_ext
      let bidx := st.binaries.length
      let binary : Binary :=
        { id := bin_id
          pkg_id := pkg_id
          pkg_spec := pkg_spec
          pkg_idx := pb.1
          name := pb.2
          file_name := file_name
          target := target
          copy_exe_to := []
          copy_symbols_to := []
          symbols_artifact := none
          features := features }
      ({ st with binaries := st.binaries ++ [binary] }, binaries ++ [bidx])
  let (st, binaries) := release.bins.foldl step (st, [])
  let variant : ReleaseVariant :=
    { target := target
      id := id
      local_artifacts := []
      binaries := binaries
      static_assets := static_assets }
  ({ st with variants := st.variants ++ [variant] }, idx)

/-- `target_symbol_kind` (tasks.rs, lines 2423-2445): the platform→symbol-kind
policy table. Every branch currently returns `None` (each kind is commented
out pending redesign), exactly as in the sources. -/
def target_symbol_kind (target : String) : Option SymbolKind :=
  if strContains target "windows-msvc" then
    none
  else if strContains target "apple" then
    none
  else
    none

/-- `DistGraphBuilder::add_local_artifact` (tasks.rs): push an artifact and
register it under a variant's `local_artifacts`. -/
def add_local_artifact (st : Store) (to_variant : Nat) (artifact : Artifact) :
    Store × Nat :=
  let idx := st.artifacts.length
  let variant := st.variants.getD to_variant default
  let variant' := { variant with local_artifacts := variant.local_artifacts ++ [idx] }
  ({ st with
      variants := st.variants.set to_variant variant'
      artifacts := st.artifacts ++ [artifact] }, idx)

/-- `DistGraphBuilder::add_global_artifact` (tasks.rs): push an artifact and
register it under a release's `global_artifacts`. -/
def add_global_artifact (st : Store) (to_release : Nat) (artifact : Artifact) :
    Store × Nat :=
  let idx := st.artifacts.length
  let release := st.releases.getD to_release default
  let release' := { release with global_artifacts := release.global_artifacts ++ [idx] }
  ({ st with
      releases := st.releases.set to_release release'
      artifacts := st.artifacts ++ [artifact] }, idx)

/-- `DistGraphBuilder::require_binary` (tasks.rs, lines 1099-1161): record
that `for_artifact` needs `binary_idx` copied to `dest_path`; on the first
requirement of a binary, opportunistically create a symbols artifact when
`target_symbol_kind` knows one for the platform. -/
def require_binary (dist_dir : String) (st : Store) (for_artifact : Nat)
    (for_variant : Nat) (binary_idx : Nat) (dest_path : String) : Store :=
  let binary := st.binaries.getD binary_idx default
  let binary := { binary with copy_exe_to := binary.copy_exe_to ++ [dest_path] }
  let st := { st with binaries := st.binaries.set binary_idx binary }
  let st :=
    if binary.symbols_artifact = none then
      match target_symbol_kind binary.target with
      | some symbol_kind =>
        let dest_symbol_ext := symbol_kind.ext
        let binary_id := binary.id
        let dest_symbol_name := binary_id ++ "." ++ dest_symbol_ext
        let artifact_path := pathJoin dist_dir dest_symbol_name
        let artifact : Artifact :=
          { id := dest_symbol_name
            target_triples := [binary.target]
            archive := none
            file_path := artifact_path
            required_binaries := []
            kind := ArtifactKind.symbols symbol_kind
            checksum := none
            is_global := false }
        let (st, sym_artifact) := add_local_artifact st for_variant artifact
        let binary := st.binaries.getD binary_idx default
        let binary' := { binary with
          symbols_artifact := some sym_artifact
          copy_symbols_to := binary.copy_symbols_to ++ [artifact_path] }
        { st with binaries := st.binaries.set binary_idx binary' }
      | none => st
    else st
  let artifact := st.artifacts.getD for_artifact default
  let artifact' := { artifact with
    required_binaries := artifact.required_binaries ++ [(binary_idx, dest_path)] }
  { st with artifacts := st.artifacts.set for_artifact artifact' }

/-- The Checksum artifact `add_artifact_checksum` derives (tasks.rs, lines
999-1019): id = `artifact.id + "." + ext`, same targets, and its own
`checksum` field `None` ("Who checksums the checksummers..."). -/
def checksumArtifactOf (artifact : Artifact) (checksum : ChecksumStyle) : Artifact :=
  let checksum_ext := checksum.ext
  let checksum_id := artifact.id ++ "." ++ checksum_ext
  let checksum_path := pathJoin (parentDir artifact.file_path) checksum_id
  { id := checksum_id
    kind := ArtifactKind.checksum
      { checksum := checksum
        src_path := artifact.file_path
        dest_path := checksum_path }
    target_triples := artifact.target_triples
    archive := none
    file_path := checksum_path
    required_binaries := []
    checksum := none
    is_global := false }

/-- `DistGraphBuilder::add_artifact_checksum` (tasks.rs, lines 992-1023):
register the derived checksum artifact as a local artifact of `to_variant`
and back-link it onto the original artifact. -/
def add_artifact_checksum (st : Store) (to_variant : Nat) (artifact_idx : Nat)
    (checksum : ChecksumStyle) : Store × Nat :=
  let artifact := st.artifacts.getD artifact_idx default
  let checksum_artifact := checksumArtifactOf artifact checksum
  let (st, checksum_idx) := add_local_artifact st to_variant checksum_artifact
  let artifact := st.artifacts.getD artifact_idx default
  let artifact' := { artifact with checksum := some checksum_idx }
  ({ st with artifacts := st.artifacts.set artifact_idx artifact' }, checksum_idx)

/-- `make_executable_zip_for_variant` (tasks.rs, lines 1028-1086): compute
the archive artifact a variant would produce, plus its built assets, without
integrating it into the graph. `bins` is the store's binary arena (the
sources resolve `BinaryIdx` handles through it). -/
def make_executable_zip_for_variant (dist_dir : String) (bins : List Binary)
    (release : Release) (variant : ReleaseVariant) :
    Artifact × List (Nat × String) :=
  let target_is_windows := strContains variant.target "windows"
  let zip_style := if target_is_windows then release.windows_archive else release.unix_archive
  let artifact_dir_name := variant.id
  let artifact_dir_path := pathJoin dist_dir artifact_dir_name
  let artifact_ext := zip_style.ext
  let artifact_name := artifact_dir_name ++ artifact_ext
  let artifact_path := pathJoin dist_dir artifact_name
  let static_assets := variant.static_assets
  let built_assets := variant.binaries.map (fun binary_idx =>
    (binary_idx, pathJoin artifact_dir_path (bins.getD binary_idx default).file_name))
  let with_root :=
    match zip_style with
    | ZipStyle.zip => none
    | _ => some artifact_dir_name
  (⟨artifact_name, [variant.target],
    some ⟨with_root, artifact_dir_path, zip_style, static_assets⟩,
    artifact_path, [], ArtifactKind.executableZip, none, false⟩,
   built_assets)

/-- The `ExecutableZipFragment` every installer generator derives from
`make_executable_zip_for_variant`'s output (tasks.rs, e.g. lines 1231-1239):
archive id, covered targets, zip style and the file names of the built
binaries. The `unwrap()` on `artifact.archive` is modelled with a match
whose `none` arm is unreachable (the zip maker always sets `archive`). -/
def fragmentOf (dist_dir : String) (bins : List Binary) (release : Release)
    (variant : ReleaseVariant) : ExecutableZipFragment :=
  let pair := make_executable_zip_for_variant dist_dir bins release variant
  { id := pair.1.id
    target_triples := pair.1.target_triples
    zip_style :=
      match pair.1.archive with
      | some ar => ar.zip_style
      | none => ZipStyle.zip
    binaries := pair.2.map (fun p => fileNameOf p.2) }

/-- `X64_MACOS` (tasks.rs, line 1200). -/
def X64_MACOS : String := "x86_64-apple-darwin"

/-- `ARM64_MACOS` (tasks.rs, line 1201). -/
def ARM64_MACOS : String := "aarch64-apple-darwin"

/-- The rosetta-fallback test shared by the shell and Homebrew installer
generators (tasks.rs, lines 1202-1214 and 1307-1319): an x64 macOS variant
exists and no arm64 macOS variant does. `variants` is the resolved list of
the release's variants. -/
def do_rosetta_fallback (variants : List ReleaseVariant) : Bool :=
  let has_x64_apple := variants.any (fun v => v.target = X64_MACOS)
  let has_arm_apple := variants.any (fun v => v.target = ARM64_MACOS)
  has_x64_apple && !has_arm_apple

/-- The fragment-gathering loop of `add_shell_installer` (tasks.rs, lines
1216-1247): skip windows variants; for each remaining variant push its
would-be archive fragment, preceded — when the rosetta fallback applies and
the variant is the x64 macOS one — by a copy of the fragment respecified to
arm64 macOS. -/
def shellInstallerFragments (dist_dir : String) (bins : List Binary)
    (release : Release) (variants : List ReleaseVariant) :
    List ExecutableZipFragment :=
  let fallback := do_rosetta_fallback variants
  variants.flatMap (fun variant =>
    if strContains variant.target "windows" then []
    else
      let fragment := fragmentOf dist_dir bins release variant
      (if fallback && variant.target = X64_MACOS then
        [{ fragment with target_triples := [ARM64_MACOS] }]
      else []) ++ [fragment])

/-- The fragment-gathering loop of `add_homebrew_installer` (tasks.rs, lines
1321-1364): skip windows and linux-gnu variants; track the x64 and arm64
macOS fragments on the side; under the rosetta fallback push (and record as
the arm64 fragment) a copy of the x64 fragment respecified to arm64 macOS,
before the fragment itself. Returns (artifacts, arm64, x86_64);
`homebrewStep` is the loop body, `homebrewInstallerFragments` the loop. -/
def homebrewStep (fallback : Bool) (dist_dir : String) (bins : List Binary)
    (release : Release)
    (acc : List ExecutableZipFragment × Option ExecutableZipFragment ×
      Option ExecutableZipFragment) (variant : ReleaseVariant) :
    List ExecutableZipFragment × Option ExecutableZipFragment ×
      Option ExecutableZipFragment :=
  if strContains variant.target "windows" || strContains variant.target "linux-gnu" then
    acc
  else
    let fragment := fragmentOf dist_dir bins release variant
    let x86_64 := if variant.target = X64_MACOS then some fragment else acc.2.2
    let arm64 := if variant.target = ARM64_MACOS then some fragment else acc.2.1
    if fallback && variant.target = X64_MACOS then
      let arm_fragment := { fragment with target_triples := [ARM64_MACOS] }
      (acc.1 ++ [arm_fragment, fragment], some arm_fragment, x86_64)
    else
      (acc.1 ++ [fragment], arm64, x86_64)

/-- The fragment-gathering loop of `add_homebrew_installer` as a fold of
`homebrewStep` over the release's variants. -/
def homebrewInstallerFragments (dist_dir : String) (bins : List Binary)
    (release : Release) (variants : List ReleaseVariant) :
    List ExecutableZipFragment × Option ExecutableZipFragment × Option ExecutableZipFragment :=
  let fallback := do_rosetta_fallback variants
  variants.foldl (homebrewStep fallback dist_dir bins release) ([], none, none)

/-- How far `add_npm_installer` (tasks.rs, lines 1504-1519) gets before it
either bails out or commits to building the installer: the npm generator's
guard sequence with, at its end, the `release.bins[0]` access (line 1519).
`panicked` is the arena access going out of bounds. -/
inductive NpmOutcome
  | skippedMode
  | skippedNoUrl
  | skippedMultiBin
  | panicked
  | made (bin : String) (npm_package_name : String)
deriving DecidableEq, Repr

/-- The guard sequence of `DistGraphBuilder::add_npm_installer` (tasks.rs,
lines 1504-1525): global-artifact mode check, download-url check, the
"more than one binary" rejection, then `release.bins[0]` — which panics on
a release with zero declared binaries — followed by the npm package-name
computation. -/
def add_npm_installer (artifact_mode : ArtifactMode) (artifact_download_url : Option String)
    (release : Release) : NpmOutcome :=
  if !global_artifacts_enabled artifact_mode then NpmOutcome.skippedMode
  else
    match artifact_download_url with
    | none => NpmOutcome.skippedNoUrl
    | some _ =>
      if release.bins.length > 1 then NpmOutcome.skippedMultiBin
      else
        match release.bins.get? 0 with
        | none => NpmOutcome.panicked
        | some bin0 =>
          let bin := bin0.2
          let npm_package_name :=
            match release.npm_scope with
            | some scope => scope ++ "/" ++ release.app_name
            | none => release.app_name
          NpmOutcome.made bin npm_package_name

/-! ## Build step compiler -/

/-- One insertion into a `BTreeMap<K, Vec<V>>` whose entry is
`entry(k).or_default().push(v)`: keep keys in `lt` order, group equal keys,
append the value to an existing group. -/
def insertGrouped {κ α : Type} [DecidableEq κ] (lt : κ → κ → Bool) (k : κ) (v : α) :
    List (κ × List α) → List (κ × List α)
  | [] => [(k, [v])]
  | (k', vs) :: rest =>
    if k = k' then (k', vs ++ [v]) :: rest
    else if lt k k' then (k, [v]) :: (k', vs) :: rest
    else (k', vs) :: insertGrouped lt k v rest

/-- Build a whole `BTreeMap<K, Vec<V>>` from a sequence of insertions. -/
def groupAll {κ α : Type} [DecidableEq κ] (lt : κ → κ → Bool) (pairs : List (κ × α)) :
    List (κ × List α) :=
  pairs.foldl (fun acc kv => insertGrouped lt kv.1 kv.2 acc) []

/-- Whether a binary needs a real build (tasks.rs, line 1844):
`!binary.copy_exe_to.is_empty() || !binary.copy_symbols_to.is_empty()`. -/
def needsBuild (b : Binary) : Bool :=
  !b.copy_exe_to.isEmpty || !b.copy_symbols_to.isEmpty

/-- The `(target, BinaryIdx)` pairs fed into the `targets` map of
`compute_cargo_builds` (tasks.rs, lines 1842-1850), in arena order. -/
def buildPairs (bins : List Binary) : List (String × Nat) :=
  (List.range bins.length).filterMap (fun i =>
    match bins.get? i with
    | some b => if needsBuild b then some (b.target, i) else none
    | none => none)

/-- Strict order on `CargoTargetFeatureList` mirroring the derived Rust
`Ord` (variant order first, then lexicographic lists). -/
def featListLt : CargoTargetFeatureList → CargoTargetFeatureList → Bool
  | .all, .all => false
  | .all, .list _ => true
  | .list _, .all => false
  | .list a, .list b => listStrLt a b
where
  /-- Lexicographic order on string lists. -/
  listStrLt : List String → List String → Bool
    | [], [] => false
    | [], _ :: _ => true
    | _ :: _, [] => false
    | a :: as, b :: bs => if a = b then listStrLt as bs else strLtB a b

/-- Strict order on `CargoTargetFeatures` mirroring the derived Rust `Ord`
(field order: `default_features`, then `features`). -/
def featuresLt (a b : CargoTargetFeatures) : Bool :=
  if a.default_features = b.default_features then featListLt a.features b.features
  else !a.default_features

/-- Strict order on the `(pkg_spec, features)` keys of the precise-build
grouping map. -/
def specKeyLt (a b : String × CargoTargetFeatures) : Bool :=
  if a.1 = b.1 then featuresLt a.2 b.2 else strLtB a.1 b.1

/-- The configuration and tool slice `compute_cargo_builds` reads:
`precise_builds`, the ambient `RUSTFLAGS` value, the cargo host target and
the optional rustup tool. -/
structure BuildConfig where
  precise_builds : Bool
  rustflags_env : String
  host_target : String
  rustup : Option Tool
deriving DecidableEq, Repr

/-- The per-target `RUSTFLAGS` value (tasks.rs, lines 1854-1868): the
ambient value plus static-CRT linking on the windows-msvc ABI. -/
def rustflagsFor (cfg : BuildConfig) (target : String) : String :=
  cfg.rustflags_env ++
    (if strContains target "windows-msvc" then " -Ctarget-feature=+crt-static" else "")

/-- The conditional rustup toolchain-provisioning step (tasks.rs, lines
1870-1884): only for the macOS→macOS cross case, and only when rustup was
found. -/
def rustupStepsFor (cfg : BuildConfig) (target : String) : List BuildStep :=
  if strEndsWith target "apple-darwin" && strEndsWith cfg.host_target "apple-darwin" &&
      target ≠ cfg.host_target then
    match cfg.rustup with
    | some rustup => [BuildStep.rustup ⟨rustup, target⟩]
    | none => []
  else []

/-- The `(pkg_spec, features)` grouping key of a binary in precise-build
mode (tasks.rs, lines 1890-1897). -/
def binKey (bins : List Binary) (bin_idx : Nat) : String × CargoTargetFeatures :=
  ((bins.getD bin_idx default).pkg_spec, (bins.getD bin_idx default).features)

/-- The cargo build steps for one target (tasks.rs, lines 1886-1922):
per-`(pkg_spec, features)` precise builds, or one workspace build whose
feature selection is the (validated-uniform) first binary's. -/
def cargoStepsFor (cfg : BuildConfig) (bins : List Binary) (target : String)
    (binaries : List Nat) : List BuildStep :=
  if cfg.precise_builds then
    (groupAll specKeyLt (binaries.map (fun bin_idx => (binKey bins bin_idx, bin_idx)))).map
      (fun g =>
        BuildStep.cargo
          { target_triple := target
            package := CargoTargetPackages.package g.1.1
            features := g.1.2
            rustflags := rustflagsFor cfg target
            profile := PROFILE_DIST
            expected_binaries := g.2 })
  else
    [BuildStep.cargo
      { target_triple := target
        package := CargoTargetPackages.workspace
        features := ((binaries.head?.map (fun idx => (bins.getD idx default).features)).getD
          CargoTargetFeatures.defaultVal)
        rustflags := rustflagsFor cfg target
        profile := PROFILE_DIST
        expected_binaries := binaries }]

/-- The per-target body of `compute_cargo_builds` (tasks.rs, lines
1853-1923): the conditional rustup step followed by the cargo build
step(s). -/
def stepsForTarget (cfg : BuildConfig) (bins : List Binary) (target : String)
    (binaries : List Nat) : List BuildStep :=
  rustupStepsFor cfg target ++ cargoStepsFor cfg bins target binaries

/-- `DistGraphBuilder::compute_cargo_builds` (tasks.rs, lines 1839-1925):
group the binaries that need a real build by target triple (sorted map) and
emit the per-target steps. -/
def compute_cargo_builds (cfg : BuildConfig) (bins : List Binary) : List BuildStep :=
  (groupAll strLtB (buildPairs bins)).flatMap (fun g => stepsForTarget cfg bins g.1 g.2)

/-- The kind-specific step of an artifact (tasks.rs, lines 1782-1806):
nothing for executable zips and symbols, one `GenerateInstaller` for
installers, one `Checksum` for checksums. `is_dir` in the definitions below
stands for the `src_path.is_dir()` file-system probe deciding dir-copy vs
file-copy. -/
def kindStepsFor (artifact : Artifact) : List BuildStep :=
  match artifact.kind with
  | ArtifactKind.executableZip => []
  | ArtifactKind.symbols _ => []
  | ArtifactKind.installer installer => [BuildStep.generateInstaller installer]
  | ArtifactKind.checksum checksum => [BuildStep.checksum checksum]

/-- The per-static-asset copy steps of an artifact's archive (tasks.rs,
lines 1810-1826). -/
def copyStepsFor (is_dir : String → Bool) (archive : Archive) : List BuildStep :=
  archive.static_assets.map (fun asset =>
    let src_path := asset.2
    let file_name := fileNameOf src_path
    let dest_path := pathJoin archive.dir_path file_name
    if is_dir src_path then BuildStep.copyDir ⟨src_path, dest_path⟩
    else BuildStep.copyFile ⟨src_path, dest_path⟩)

/-- The single archive step of an artifact's archive (tasks.rs, lines
1828-1834). -/
def zipStepFor (artifact : Artifact) (archive : Archive) : BuildStep :=
  BuildStep.zip ⟨archive.dir_path, artifact.file_path, archive.with_root, archive.zip_style⟩

/-- The archive block of `add_build_steps_for_artifacts` (tasks.rs, lines
1808-1835): asset copies, then exactly one zip step. -/
def archiveStepsFor (is_dir : String → Bool) (artifact : Artifact) : List BuildStep :=
  match artifact.archive with
  | some archive => copyStepsFor is_dir archive ++ [zipStepFor artifact archive]
  | none => []

/-- The per-artifact body of `add_build_steps_for_artifacts` assembled:
kind-specific step(s), then the archive block. -/
def stepsForArtifact (is_dir : String → Bool) (artifact : Artifact) : List BuildStep :=
  kindStepsFor artifact ++ archiveStepsFor is_dir artifact

/-- `DistGraphBuilder::compute_build_steps` (tasks.rs, lines 1751-1778):
the cargo builds, then the steps of every non-global artifact, then the
steps of every global artifact. -/
def compute_build_steps (cfg : BuildConfig) (is_dir : String → Bool)
    (bins : List Binary) (artifacts : List Artifact) : List BuildStep :=
  compute_cargo_builds cfg bins ++
    (artifacts.filter (fun a => !a.is_global)).flatMap (stepsForArtifact is_dir) ++
    (artifacts.filter (fun a => a.is_global)).flatMap (stepsForArtifact is_dir)

/-- Which part of `compute_build_steps` a step comes from: the compile
phase, or the expansion of the artifact at arena position `idx` (with its
`is_global` flag). -/
inductive StepSource
  | compile
  | fromArtifact (is_global : Bool) (idx : Nat)
deriving DecidableEq, Repr

/-- The artifacts with their arena positions that survive a filter. -/
def enumFilter (p : Artifact → Bool) (artifacts : List Artifact) : List (Nat × Artifact) :=
  artifacts.enum.filter (fun ka => p ka.2)

/-- The steps of one filtered artifact pass, each tagged with its source. -/
def taggedArtifactSteps (is_dir : String → Bool) (g : Bool)
    (arts : List (Nat × Artifact)) : List (StepSource × BuildStep) :=
  arts.flatMap (fun ka =>
    (stepsForArtifact is_dir ka.2).map (fun s => (StepSource.fromArtifact g ka.1, s)))

/-- `compute_build_steps` with every step tagged by its source; projecting
the tags away recovers `compute_build_steps` (proved below). -/
def taggedBuildSteps (cfg : BuildConfig) (is_dir : String → Bool)
    (bins : List Binary) (artifacts : List Artifact) : List (StepSource × BuildStep) :=
  (compute_cargo_builds cfg bins).map (fun s => (StepSource.compile, s)) ++
    taggedArtifactSteps is_dir false (enumFilter (fun a => !a.is_global) artifacts) ++
    taggedArtifactSteps is_dir true (enumFilter (fun a => a.is_global) artifacts)

/-! ## Tag/announcement resolver -/

/-- `PartialAnnouncementTag` (tasks.rs): details on what we're announcing,
partially computed. -/
structure PartialAnnouncementTag where
  tag : Option String
  version : Option Version
  package : Option Nat
  prerelease : Bool
deriving DecidableEq, Repr

/-- `AnnouncementTag` (tasks.rs): details on what we're announcing. -/
structure AnnouncementTag where
  tag : String
  version : Option Version
  package : Option Nat
  prerelease : Bool
  rust_releases : List (Nat × List String)
deriving DecidableEq, Repr

/-- The errors `parse_tag` can return (`DistError`, whose definition lives
in `errors.rs`; the variants and their payloads are modelled from the
construction sites in tasks.rs — the `semver` parse details are dropped). -/
inductive ParseTagError
  | tagVersionParse (tag : String)
  | contradictoryTagVersion (tag : String) (package_name : String)
      (tag_version : Version) (real_version : Version)
  | noTagMatch (tag : String)
deriving DecidableEq, Repr

/-- `strip_prefix_package` (tasks.rs, lines 2797-2813): try to strip a
package name from the input, preferring the longest package name (the
shortest rest); on a tie the earlier package wins (`best.len() <= rest.len()`
keeps the current result). Returns the package index and the rest. -/
def strip_prefix_package (ws : Workspace) (input : String) : Option (Nat × String) :=
  ws.packages.enum.foldl
    (fun result ip =>
      match stripPre ip.2.1.name input with
      | none => result
      | some rest =>
        match result with
        | some best => if best.2.length ≤ rest.length then some best else some (ip.1, rest)
        | none => some (ip.1, rest))
    none

/-- The package-matching phase of `parse_tag` (tasks.rs, lines 2587-2616):
the `prefix/suffix` split with its exact-package-name check, then the
`some-package-v1.0.0` fused form with its mandatory separating dash.
Returns the announced package (if any) and the remaining tag suffix. -/
def matchTagPackage (ws : Workspace) (tag : String) : Option Nat × String :=
  let (announcing_package, tag_suffix) :=
    match rsplitOnceChar '/' tag with
    | some ps =>
      let maybe_package :=
        match rsplitOnceChar '/' ps.1 with
        | some pp => pp.2
        | none => ps.1
      let pkg :=
        match strip_prefix_package ws maybe_package with
        | some ir => if ir.2 = "" then some ir.1 else none
        | none => none
      (pkg, ps.2)
    | none => (none, tag)
  if announcing_package.isNone then
    match strip_prefix_package ws tag_suffix with
    | some ir =>
      match stripPre "-" ir.2 with
      | some suffix => (some ir.1, suffix)
      | none => (none, tag_suffix)
    | none => (none, tag_suffix)
  else (announcing_package, tag_suffix)

/-- The version suffix `parse_tag` hands to the semver parser (tasks.rs,
lines 2618-2622): the tag suffix with an optional leading `v` stripped. -/
def versionSuffix (s : String) : String :=
  match stripPre "v" s with
  | some suffix => suffix
  | none => s

/-- `parse_tag` (tasks.rs, lines 2580-2668). `parseVersion` stands for
`str::parse::<semver::Version>` (external crate). With no tag, the default
`PartialAnnouncementTag` is returned for later inference passes to fill in. -/
def parse_tag (parseVersion : String → Option Version) (ws : Workspace)
    (tag : Option String) : Except ParseTagError PartialAnnouncementTag :=
  match tag with
  | none => Except.ok ⟨none, none, none, false⟩
  | some t =>
    let (announcing_package, tag_suffix) := matchTagPackage ws t
    match parseVersion (versionSuffix tag_suffix) with
    | none => Except.error (ParseTagError.tagVersionParse t)
    | some version =>
      let announcing_prerelease := version.pre ≠ ""
      let checked : Except ParseTagError (Option Version) :=
        match announcing_package with
        | some pkg_idx =>
          let package := ws.pkg pkg_idx
          match package.version with
          | some real_version =>
            if real_version ≠ version then
              Except.error (ParseTagError.contradictoryTagVersion t package.name
                version real_version)
            else Except.ok none
          | none => Except.ok none
        | none => Except.ok (some version)
      match checked with
      | Except.error e => Except.error e
      | Except.ok announcing_version =>
        if announcing_package.isNone ∧ announcing_version.isNone then
          Except.error (ParseTagError.noTagMatch t)
        else
          Except.ok ⟨some t, announcing_version, announcing_package, announcing_prerelease⟩

/-- `check_dist_package` (tasks.rs, lines 2337-2386): `some reason` when the
package should not be distributed. The `announcing.tag.as_ref().unwrap()`
in the two "didn't match tag" arms is modelled with `getD ""` (those arms
are only reachable when a tag was supplied). -/
def check_dist_package (ws : Workspace) (pkg_id : Nat)
    (announcing : PartialAnnouncementTag) : Option String :=
  let pkg := ws.pkg pkg_id
  if pkg.binaries.isEmpty then some "no binaries"
  else
    let override_publish :=
      match (ws.meta pkg_id).dist with
      | some do_dist => some do_dist
      | none => none
    match override_publish with
    | some false => some "dist = false"
    | _ =>
      if !pkg.publish ∧ override_publish ≠ some true then some "publish = false"
      else
        match announcing.package with
        | some id =>
          if pkg_id ≠ id then some ("didn't match tag " ++ announcing.tag.getD "")
          else checkVersion pkg announcing
        | none => checkVersion pkg announcing
where
  /-- The version-mismatch check at the end of `check_dist_package`. -/
  checkVersion (pkg : PackageInfo)
      (announcing : PartialAnnouncementTag) : Option String :=
    match announcing.version with
    | some ver =>
      if pkg.version.getD default ≠ ver then
        some ("didn't match tag " ++ announcing.tag.getD "")
      else none
    | none => none

/-- `select_packages` (tasks.rs, lines 2674-2718): every package whose
`check_dist_package` verdict is clean contributes all its binaries. -/
def select_packages (ws : Workspace) (announcing : PartialAnnouncementTag) :
    List (Nat × List String) :=
  (List.range ws.packages.length).filterMap (fun pkg_id =>
    let pkg := ws.pkg pkg_id
    let disabled_reason := check_dist_package ws pkg_id announcing
    let rust_binaries := if disabled_reason.isNone then pkg.binaries else []
    if rust_binaries.isEmpty then none else some (pkg_id, rust_binaries))

/-- `possible_tags` (tasks.rs, lines 2724-2735): group the packages we want
to announce by version (sorted map). -/
def possible_tags (ws : Workspace) (rust_releases : List Nat) :
    List (Version × List Nat) :=
  groupAll versionLtB (rust_releases.map (fun pkg_idx =>
    ((ws.pkg pkg_idx).version.getD default, pkg_idx)))

/-- The fixed help text `tag_help` returns when the workspace has no
distable packages at all (tasks.rs, lines 2750-2754). -/
def noPackagesHelp : String :=
  "It appears that you have no packages in your workspace with distable binaries. " ++
  "You can rerun with \"--verbose=info\" to see what cargo-dist thinks is in your workspace."

/-- `tag_help` (tasks.rs, lines 2738-2789): the base suggestion, one
`--tag=v<version> will Announce: <packages>` line per version group, and a
single-package `--tag` suggestion. -/
def tag_help (ws : Workspace) (versions : List (Version × List Nat))
    (base_suggestion : String) : String :=
  match versions.head?.bind (fun g => g.2.head?) with
  | none => noPackagesHelp
  | some some_pkg =>
    base_suggestion ++ "\n\n" ++ "Here are some options:\n\n" ++
    String.join (versions.map (fun g =>
      "--tag=v" ++ vToString g.1 ++ " will Announce: " ++
        commaJoin (g.2.map (fun pkg_id => (ws.pkg pkg_id).name)) ++ "\n")) ++
    "\n" ++
    "you can also request any single package with --tag=" ++ (ws.pkg some_pkg).name ++
      "-v" ++ vToString ((ws.pkg some_pkg).version.getD default) ++ "\n"

/-- The errors `select_tag` can return (`DistError` variants modelled from
their construction sites in tasks.rs). -/
inductive SelectTagError
  | parse (e : ParseTagError)
  | nothingToRelease (help : String)
  | tooManyUnrelatedApps (help : String)
deriving DecidableEq, Repr

/-- `select_tag` (tasks.rs, lines 2504-2573): parse the tag, select the
packages, bail out on an empty selection (unless a package was explicitly
targeted), then — when no tag was supplied — infer one: a single version
group announces `v<version>`; several groups are fatal under
`needs_coherent_announcement_tag` and otherwise substitute the placeholder
`v1.0.0-FAKEVER` while returning the full unconstrained selection. -/
def select_tag (parseVersion : String → Option Version) (ws : Workspace)
    (tag : Option String) (needs_coherent_announcement_tag : Bool) :
    Except SelectTagError AnnouncementTag :=
  match parse_tag parseVersion ws tag with
  | Except.error e => Except.error (SelectTagError.parse e)
  | Except.ok announcing =>
    let rust_releases := select_packages ws announcing
    if rust_releases.isEmpty ∧ announcing.package.isNone then
      match parse_tag parseVersion ws none with
      | Except.error e => Except.error (SelectTagError.parse e)
      | Except.ok announcing' =>
        let rust_releases' := select_packages ws announcing'
        let versions := possible_tags ws (rust_releases'.map (fun r => r.1))
        let help := tag_help ws versions
          ("You may need to pass the current version as --tag, or need to give " ++
           "all your packages the same version")
        Except.error (SelectTagError.nothingToRelease help)
    else
      match announcing.tag with
      | some t =>
        Except.ok ⟨t, announcing.version, announcing.package, announcing.prerelease,
          rust_releases⟩
      | none =>
        let versions := possible_tags ws (rust_releases.map (fun r => r.1))
        if versions.length = 1 then
          let version := (versions.head?.getD default).1
          let t := "v" ++ vToString version
          Except.ok ⟨t, some version, announcing.package, version.pre ≠ "",
            rust_releases⟩
        else if needs_coherent_announcement_tag then
          let help := tag_help ws versions
            "Please either specify --tag, or give them all the same version"
          Except.error (SelectTagError.tooManyUnrelatedApps help)
        else
          Except.ok ⟨"v1.0.0-FAKEVER", some ⟨1, 0, 0, "FAKEVER"⟩, announcing.package,
            true, rust_releases⟩

/-! ## Graph-builder construction: the precise-builds decision -/

/-- The feature-selection slice of a `DistMetadata` config that the
precise-builds decision of `DistGraphBuilder::new` compares (tasks.rs,
lines 689-698). -/
structure FeatureConfig where
  features : Option (List String)
  all_features : Option Bool
  default_features : Option Bool
deriving DecidableEq, Repr

/-- The packages whose merged feature settings disagree with the
workspace's (tasks.rs, lines 689-698): the name is pushed when any of
`features`, `all_features` or `default_features` differs. -/
def packages_with_mismatched_features (workspace_features : FeatureConfig)
    (packages : List (String × FeatureConfig)) : List String :=
  (packages.filter (fun p =>
    p.2.features ≠ workspace_features.features ∨
    p.2.all_features ≠ workspace_features.all_features ∨
    p.2.default_features ≠ workspace_features.default_features)).map (fun p => p.1)

/-- `DistError::PreciseImpossible` modelled from its construction site. -/
inductive PreciseBuildsError
  | preciseImpossible (packages : List String)
deriving DecidableEq, Repr

/-- The precise-builds decision of `DistGraphBuilder::new` (tasks.rs, lines
700-711): an explicit `precise_builds = false` with mismatched packages is
fatal; an explicit setting is otherwise honoured; an absent setting is
forced to the mismatch flag. -/
def decide_precise_builds (precise_builds : Option Bool)
    (workspace_features : FeatureConfig) (packages : List (String × FeatureConfig)) :
    Except PreciseBuildsError Bool :=
  let mismatched := packages_with_mismatched_features workspace_features packages
  let requires_precise := !mismatched.isEmpty
  match precise_builds with
  | some pb =>
    if !pb && requires_precise then
      Except.error (PreciseBuildsError.preciseImpossible mismatched)
    else Except.ok pb
  | none => Except.ok requires_precise

/-! ## Reachable artifact stores (for the checksum invariant) -/

/-- The artifact-arena transitions the graph-builder operations perform.
Every artifact the sources construct outside `add_artifact_checksum`
(executable zips, the five installers, symbols artifacts) is pushed with
`checksum: None` and a non-`Checksum` kind; `add_artifact_checksum` itself
is invoked from exactly two sites (`add_executable_zip` line 987 and
`add_msi_installer` line 1712), both on an artifact just created with kind
`ExecutableZip` respectively `Installer`. `checksumStep` exposes the arena
component of `add_artifact_checksum`. -/
inductive ReachableArtifacts : List Artifact → Prop
  | empty : ReachableArtifacts []
  | push (arts : List Artifact) (a : Artifact)
      (hck : a.checksum = none) (hkind : a.kind.isChecksumKind = false)
      (h : ReachableArtifacts arts) : ReachableArtifacts (arts ++ [a])
  | checksumStep (arts : List Artifact) (variants : List ReleaseVariant)
      (to_variant : Nat) (i : Nat) (style : ChecksumStyle)
      (hi : i < arts.length)
      (hkind : (arts.get ⟨i, hi⟩).kind = ArtifactKind.executableZip ∨
        ∃ impl_, (arts.get ⟨i, hi⟩).kind = ArtifactKind.installer impl_)
      (h : ReachableArtifacts arts) :
      ReachableArtifacts
        (add_artifact_checksum ⟨[], arts, variants, [], []⟩ to_variant i style).1.artifacts

/-! ## Claim C1: the form of `Release.id` -/

/-- C1 (counterexample): the claim "`Release.id` has the form
`<app>-v<version>`" fails on the code. For a package named `my-app` at
version `1.0.0`, `add_release` stores the id `"my-app"`, not
`"my-app-v1.0.0"`: line 845 of tasks.rs sets `id = app_name.clone()`. -/
theorem C1_release_id_counterexample :
    (((add_release
        ⟨[({ (default : PackageInfo) with
              name := "my-app", version := some ⟨1, 0, 0, ""⟩,
              binaries := ["my-app"] }, default)]⟩
        Store.empty 0).1.releases.getD 0 default).id = "my-app") ∧
    "my-app" ≠ "my-app-v1.0.0" := by
  constructor
  · rfl
  · decide

/-- C1 (amended): for every release created by `add_release`, the
`Release.id` string stored in the entity store is exactly the package's app
name (the version is not appended). -/
theorem C1_release_id_is_app_name (ws : Workspace) (st : Store) (pkg_idx : Nat) :
    ∃ r : Release,
      (add_release ws st pkg_idx).1.releases = st.releases ++ [r] ∧
      r.id = (ws.pkg pkg_idx).name ∧
      r.app_name = (ws.pkg pkg_idx).name ∧
      r.version = (ws.pkg pkg_idx).version.getD default := by
  exact ⟨_, rfl, rfl, rfl, rfl⟩

/-! ## Claim C3: `add_variant` dedup idempotence -/

/-- The two-package workspace of the C3 failing input: `app-a` and `app-b`,
both at version `1.0.0`, both declaring a binary named `shared-tool`. -/
def c3Workspace : Workspace :=
  ⟨[({ (default : PackageInfo) with
        name := "app-a", version := some ⟨1, 0, 0, ""⟩,
        binaries := ["shared-tool"], cargo_package_id := some "app-a-id" }, default),
    ({ (default : PackageInfo) with
        name := "app-b", version := some ⟨1, 0, 0, ""⟩,
        binaries := ["shared-tool"], cargo_package_id := some "app-b-id" }, default)]⟩

/-- The C3 failing run: a release per package, the shared binary name
registered on each, then one `add_variant` per release for the same target,
so both calls derive the binary id
`shared-tool-v1.0.0-x86_64-unknown-linux-gnu`. -/
def c3FinalStore : Store :=
  let st := (add_release c3Workspace Store.empty 0).1
  let st := add_binary st 0 0 "shared-tool"
  let st := (add_release c3Workspace st 1).1
  let st := add_binary st 1 1 "shared-tool"
  let st := (add_variant c3Workspace st 0 "x86_64-unknown-linux-gnu").1
  (add_variant c3Workspace st 1 "x86_64-unknown-linux-gnu").1

/-- C3: dedup idempotence fails on the code. In the failing run both
`add_variant` calls derive the identical binary id, yet the store ends with
two distinct `Binary` entities carrying that id and the two variants hold
different handles — because `binaries_by_id` is created empty in
`DistGraphBuilder::new` and never inserted into, so the dedup lookup at
line 906 can never hit (it is still empty at the end of the run). -/
theorem C3_dedup_never_fires :
    c3FinalStore.binaries.map Binary.id =
      ["shared-tool-v1.0.0-x86_64-unknown-linux-gnu",
       "shared-tool-v1.0.0-x86_64-unknown-linux-gnu"] ∧
    (c3FinalStore.variants.getD 0 default).binaries = [0] ∧
    (c3FinalStore.variants.getD 1 default).binaries = [1] ∧
    c3FinalStore.binaries.length = 2 ∧
    c3FinalStore.binaries_by_id = [] := by
  refine ⟨?_, ?_, ?_, ?_, ?_⟩ <;> rfl

/-! ## Claim C9: the precise-builds decision of `DistGraphBuilder::new` -/

/-- C9: graph-builder construction fails, naming exactly the offending
packages, precisely when `precise-builds` is explicitly `false` while at
least one package's feature settings disagree with the workspace's; and
when `precise-builds` is left unset, a disagreement silently forces precise
builds on. -/
theorem C9_precise_builds_decision (precise : Option Bool) (wf : FeatureConfig)
    (pkgs : List (String × FeatureConfig)) :
    ((∃ e, decide_precise_builds precise wf pkgs = Except.error e) ↔
      (precise = some false ∧ packages_with_mismatched_features wf pkgs ≠ [])) ∧
    (precise = some false → packages_with_mismatched_features wf pkgs ≠ [] →
      decide_precise_builds precise wf pkgs =
        Except.error (PreciseBuildsError.preciseImpossible
          (packages_with_mismatched_features wf pkgs))) ∧
    (precise = none →
      decide_precise_builds precise wf pkgs =
        Except.ok (!(packages_with_mismatched_features wf pkgs).isEmpty)) ∧
    (∀ pb, precise = some pb → packages_with_mismatched_features wf pkgs = [] →
      decide_precise_builds precise wf pkgs = Except.ok pb) := by
  simp only [decide_precise_builds]
  rcases precise with _ | pb
  · simp
  · rcases pb with _ | _ <;>
      rcases hmm : packages_with_mismatched_features wf pkgs with _ | ⟨p, rest⟩ <;>
      simp [hmm]

/-- C9 (witness): with the workspace feature config all unset and one
package `mismatchy` enabling a feature list, an explicit
`precise-builds = false` fails naming `mismatchy`, and an unset
`precise-builds` is forced on. -/
theorem C9_precise_builds_decision_witness :
    decide_precise_builds (some false) ⟨none, none, none⟩
        [("mismatchy", ⟨some ["fancy"], none, none⟩)] =
      Except.error (PreciseBuildsError.preciseImpossible ["mismatchy"]) ∧
    decide_precise_builds none ⟨none, none, none⟩
        [("mismatchy", ⟨some ["fancy"], none, none⟩)] = Except.ok true := by
  constructor
  · exact (C9_precise_builds_decision (some false) ⟨none, none, none⟩
      [("mismatchy", ⟨some ["fancy"], none, none⟩)]).2.1 rfl (by decide)
  · exact (C9_precise_builds_decision none ⟨none, none, none⟩
      [("mismatchy", ⟨some ["fancy"], none, none⟩)]).2.2.1 rfl

/-! ## Claim C10: `add_npm_installer` and zero-binary releases -/

/-- C10: the npm installer generator only rejects releases with more than
one declared binary before indexing `release.bins[0]`; it never reaches the
panicking index while at least one binary is declared, and for a release
with zero declared binaries — with global artifacts enabled and a download
URL present — the indexing panics instead of skipping or erroring. -/
theorem C10_npm_zero_bins_panics (mode : ArtifactMode) (url : Option String)
    (release : Release) :
    (release.bins ≠ [] → add_npm_installer mode url release ≠ NpmOutcome.panicked) ∧
    (global_artifacts_enabled mode = true → ∀ u, url = some u → release.bins = [] →
      add_npm_installer mode url release = NpmOutcome.panicked) := by
  constructor
  · intro hbins
    simp only [add_npm_installer]
    rcases hmode : global_artifacts_enabled mode with _ | _
    · simp
    · rcases url with _ | u
      · simp
      · simp only [Bool.not_true, Bool.false_eq_true, if_false]
        by_cases hlen : release.bins.length > 1
        · simp [hlen]
        · rcases hget : release.bins.get? 0 with _ | bin0
          · have hnil : release.bins = [] := by
              have hlen0 := List.get?_eq_none.mp hget
              exact List.eq_nil_of_length_eq_zero (by omega)
            exact absurd hnil hbins
          · simp [hlen, hget]
  · intro hmode u hu hbins
    subst hu
    simp [add_npm_installer, hmode, hbins]

/-- C10 (witness): with artifact mode `All`, a download URL present and an
empty declared-binaries list the generator panics; with one declared binary
it does not. -/
theorem C10_npm_zero_bins_panics_witness :
    add_npm_installer ArtifactMode.all (some "https://example.com/releases")
        { (default : Release) with app_name := "my-app", bins := [] } =
      NpmOutcome.panicked ∧
    add_npm_installer ArtifactMode.all (some "https://example.com/releases")
        { (default : Release) with app_name := "my-app", bins := [(0, "my-app")] } ≠
      NpmOutcome.panicked := by
  constructor
  · exact (C10_npm_zero_bins_panics ArtifactMode.all (some "https://example.com/releases")
      { (default : Release) with app_name := "my-app", bins := [] }).2 rfl
      "https://example.com/releases" rfl rfl
  · exact (C10_npm_zero_bins_panics ArtifactMode.all (some "https://example.com/releases")
      { (default : Release) with app_name := "my-app", bins := [(0, "my-app")] }).1
      (by decide)

/-! ## Claim C7: the `parse_tag` contract -/

/-- C7: on a supplied tag, `parse_tag` fails when no version can be parsed
out of the tag (so a success with no package match always carries a parsed
version — at least one of the two fields is set in every successful
outcome), and fails with the contradiction error when a package was matched
whose real version differs from the parsed one. -/
theorem C7_parse_tag_contract (pv : String → Option Version) (ws : Workspace)
    (t : String) :
    (∀ p, parse_tag pv ws (some t) = Except.ok p →
      (p.package.isSome ∨ p.version.isSome) ∧ p.tag = some t) ∧
    (pv (versionSuffix (matchTagPackage ws t).2) = none →
      parse_tag pv ws (some t) = Except.error (ParseTagError.tagVersionParse t)) ∧
    (∀ i ver rv, (matchTagPackage ws t).1 = some i →
      pv (versionSuffix (matchTagPackage ws t).2) = some ver →
      (ws.pkg i).version = some rv → rv ≠ ver →
      parse_tag pv ws (some t) =
        Except.error (ParseTagError.contradictoryTagVersion t (ws.pkg i).name ver rv)) := by
  rcases hmatch : matchTagPackage ws t with ⟨pkg, suffix⟩
  refine ⟨?_, ?_, ?_⟩
  · intro p hok
    simp only [parse_tag, hmatch] at hok
    rcases hpv : pv (versionSuffix suffix) with _ | ver
    · simp [hpv] at hok
    · simp only [hpv] at hok
      rcases pkg with _ | i
      · simp only at hok
        rcases hok with ⟨rfl⟩
        exact ⟨Or.inr rfl, rfl⟩
      · simp only at hok
        rcases hver : (ws.pkg i).version with _ | rv
        · simp only [hver] at hok
          rcases hok with ⟨rfl⟩
          exact ⟨Or.inl rfl, rfl⟩
        · simp only [hver] at hok
          by_cases hne : rv ≠ ver
          · simp [hne] at hok
          · simp only [hne, if_false, reduceIte] at hok
            rcases hok with ⟨rfl⟩
            exact ⟨Or.inl rfl, rfl⟩
  · intro hpv
    simp only at hpv
    simp [parse_tag, hmatch, hpv]
  · intro i ver rv hpkg hpv hver hne
    simp only at hpkg hpv
    subst hpkg
    simp [parse_tag, hmatch, hpv, hver, hne]

/-- The one-package workspace used by the C7 witness: `my-app` at `1.0.0`. -/
def c7Workspace : Workspace :=
  ⟨[({ (default : PackageInfo) with
        name := "my-app", version := some ⟨1, 0, 0, ""⟩,
        binaries := ["my-app"] }, default)]⟩

/-- The toy semver parser used by the C7 witness. -/
def c7ParseVersion : String → Option Version := fun s =>
  if s = "1.0.0" then some ⟨1, 0, 0, ""⟩
  else if s = "1.2.3" then some ⟨1, 2, 3, ""⟩
  else none

/-- C7 (witness): the tag `my-app-v1.2.3` against `my-app` at real version
`1.0.0` matches the package, parses version `1.2.3`, and resolution fails
with the contradiction error naming both versions; the unparseable tag
`garbage` fails with the version-parse error; and the parse of `v1.0.0`
succeeds with its version field set. -/
theorem C7_parse_tag_contract_witness :
    parse_tag c7ParseVersion c7Workspace (some "my-app-v1.2.3") =
      Except.error (ParseTagError.contradictoryTagVersion "my-app-v1.2.3" "my-app"
        ⟨1, 2, 3, ""⟩ ⟨1, 0, 0, ""⟩) ∧
    parse_tag c7ParseVersion c7Workspace (some "garbage") =
      Except.error (ParseTagError.tagVersionParse "garbage") ∧
    ((⟨some "v1.0.0", some ⟨1, 0, 0, ""⟩, none, false⟩ : PartialAnnouncementTag).package.isSome ∨
      (⟨some "v1.0.0", some ⟨1, 0, 0, ""⟩, none, false⟩ : PartialAnnouncementTag).version.isSome) := by
  refine ⟨?_, ?_, ?_⟩
  · exact (C7_parse_tag_contract c7ParseVersion c7Workspace "my-app-v1.2.3").2.2
      0 ⟨1, 2, 3, ""⟩ ⟨1, 0, 0, ""⟩ (by decide) (by decide) (by decide) (by decide)
  · exact (C7_parse_tag_contract c7ParseVersion c7Workspace "garbage").2.1 (by decide)
  · exact ((C7_parse_tag_contract c7ParseVersion c7Workspace "v1.0.0").1
      ⟨some "v1.0.0", some ⟨1, 0, 0, ""⟩, none, false⟩ rfl).1

/-! ## Claim C8: tag inference in `select_tag` -/

/-- C8: with no raw tag supplied and a nonempty package selection,
`select_tag` groups the selected packages by version. A single version
group announces `v<version>` with that version's prerelease flag and the
selection; more than one group with a coherent tag required fails with the
help-bearing error built by `tag_help` over the candidate tags; without the
coherence requirement the placeholder `v1.0.0-FAKEVER` is substituted and
the full unconstrained selection is still returned. -/
theorem C8_tag_inference (pv : String → Option Version) (ws : Workspace)
    (coherent : Bool)
    (hsel : select_packages ws ⟨none, none, none, false⟩ ≠ []) :
    (∀ vp, possible_tags ws
        ((select_packages ws ⟨none, none, none, false⟩).map (fun r => r.1)) = [vp] →
      select_tag pv ws none coherent =
        Except.ok ⟨"v" ++ vToString vp.1, some vp.1, none, decide (vp.1.pre ≠ ""),
          select_packages ws ⟨none, none, none, false⟩⟩) ∧
    (1 < (possible_tags ws
        ((select_packages ws ⟨none, none, none, false⟩).map (fun r => r.1))).length →
      coherent = true →
      select_tag pv ws none coherent =
        Except.error (SelectTagError.tooManyUnrelatedApps
          (tag_help ws
            (possible_tags ws
              ((select_packages ws ⟨none, none, none, false⟩).map (fun r => r.1)))
            "Please either specify --tag, or give them all the same version"))) ∧
    (1 < (possible_tags ws
        ((select_packages ws ⟨none, none, none, false⟩).map (fun r => r.1))).length →
      coherent = false →
      select_tag pv ws none coherent =
        Except.ok ⟨"v1.0.0-FAKEVER", some ⟨1, 0, 0, "FAKEVER"⟩, none, true,
          select_packages ws ⟨none, none, none, false⟩⟩) := by
  have hparse : parse_tag pv ws none = Except.ok ⟨none, none, none, false⟩ := rfl
  have hempty :
      (select_packages ws ⟨none, none, none, false⟩).isEmpty = false := by
    rcases h : select_packages ws ⟨none, none, none, false⟩ with _ | ⟨a, rest⟩
    · exact absurd h hsel
    · rfl
  refine ⟨?_, ?_, ?_⟩
  · intro vp hvs
    simp only [select_tag, hparse, hempty, hvs, Bool.false_eq_true, false_and, if_false,
      reduceIte, List.length_singleton, List.head?, Option.getD_some, if_true]
  · intro hlen hcoh
    subst hcoh
    have hne : ¬(possible_tags ws
        ((select_packages ws ⟨none, none, none, false⟩).map (fun r => r.1))).length = 1 := by
      omega
    simp only [select_tag, hparse, hempty, Bool.false_eq_true, false_and, if_false,
      reduceIte, hne, if_true]
  · intro hlen hcoh
    subst hcoh
    have hne : ¬(possible_tags ws
        ((select_packages ws ⟨none, none, none, false⟩).map (fun r => r.1))).length = 1 := by
      omega
    simp only [select_tag, hparse, hempty, Bool.false_eq_true, false_and, if_false,
      reduceIte, hne]

/-- The two-package two-version workspace of the C8 witness. -/
def c8Workspace : Workspace :=
  ⟨[({ (default : PackageInfo) with
        name := "a", version := some ⟨1, 0, 0, ""⟩, binaries := ["a"] }, default),
    ({ (default : PackageInfo) with
        name := "b", version := some ⟨2, 0, 0, ""⟩, binaries := ["b"] }, default)]⟩

/-- The one-version workspace of the C8 witness. -/
def c8WorkspaceOne : Workspace :=
  ⟨[({ (default : PackageInfo) with
        name := "a", version := some ⟨1, 0, 0, ""⟩, binaries := ["a"] }, default),
    ({ (default : PackageInfo) with
        name := "b", version := some ⟨1, 0, 0, ""⟩, binaries := ["b"] }, default)]⟩

/-- C8 (witness): packages `{a@1.0.0, b@1.0.0}` with no tag resolve to
`v1.0.0` covering both; `{a@1.0.0, b@2.0.0}` with coherence required fail
with the two-group help, and without it return the placeholder tag with the
full selection. -/
theorem C8_tag_inference_witness :
    select_tag c7ParseVersion c8WorkspaceOne none true =
      Except.ok ⟨"v1.0.0", some ⟨1, 0, 0, ""⟩, none, false,
        [(0, ["a"]), (1, ["b"])]⟩ ∧
    select_tag c7ParseVersion c8Workspace none true =
      Except.error (SelectTagError.tooManyUnrelatedApps
        (tag_help c8Workspace
          (possible_tags c8Workspace [0, 1])
          "Please either specify --tag, or give them all the same version")) ∧
    select_tag c7ParseVersion c8Workspace none false =
      Except.ok ⟨"v1.0.0-FAKEVER", some ⟨1, 0, 0, "FAKEVER"⟩, none, true,
        [(0, ["a"]), (1, ["b"])]⟩ := by
  refine ⟨?_, ?_, ?_⟩
  · have h := (C8_tag_inference c7ParseVersion c8WorkspaceOne true (by decide)).1
      (⟨1, 0, 0, ""⟩, [0, 1]) (by decide)
    exact h.trans rfl
  · have h := (C8_tag_inference c7ParseVersion c8Workspace true (by decide)).2.1
      (by decide) rfl
    exact h.trans rfl
  · have h := (C8_tag_inference c7ParseVersion c8Workspace false (by decide)).2.2
      (by decide) rfl
    exact h.trans rfl

/-! ## Claim C6: the rosetta (emulation) fallback fragment -/

/-- One Homebrew loop iteration only appends to the gathered fragment list. -/
theorem homebrewStep_mono (fallback : Bool) (dist_dir : String) (bins : List Binary)
    (release : Release) (acc : List ExecutableZipFragment × Option ExecutableZipFragment ×
      Option ExecutableZipFragment) (variant : ReleaseVariant)
    (x : ExecutableZipFragment) (hx : x ∈ acc.1) :
    x ∈ (homebrewStep fallback dist_dir bins release acc variant).1 := by
  simp only [homebrewStep]
  split
  · exact hx
  · split
    · exact List.mem_append_left _ hx
    · exact List.mem_append_left _ hx

/-- The Homebrew fold only appends to the gathered fragment list. -/
theorem homebrewFold_mono (fallback : Bool) (dist_dir : String) (bins : List Binary)
    (release : Release) (vs : List ReleaseVariant)
    (acc : List ExecutableZipFragment × Option ExecutableZipFragment ×
      Option ExecutableZipFragment)
    (x : ExecutableZipFragment) (hx : x ∈ acc.1) :
    x ∈ (vs.foldl (homebrewStep fallback dist_dir bins release) acc).1 := by
  induction vs generalizing acc with
  | nil => exact hx
  | cons w ws ih =>
    exact ih _ (homebrewStep_mono fallback dist_dir bins release acc w x hx)

/-- Under an active fallback, the Homebrew fold pushes the arm64-respecified
copy of every x64 macOS variant's fragment. -/
theorem homebrewFold_arm_mem (dist_dir : String) (bins : List Binary)
    (release : Release) (vs : List ReleaseVariant)
    (acc : List ExecutableZipFragment × Option ExecutableZipFragment ×
      Option ExecutableZipFragment)
    (v : ReleaseVariant) (hv : v ∈ vs) (hvx : v.target = X64_MACOS) :
    { fragmentOf dist_dir bins release v with target_triples := [ARM64_MACOS] } ∈
      (vs.foldl (homebrewStep true dist_dir bins release) acc).1 := by
  induction vs generalizing acc with
  | nil => cases hv
  | cons w ws ih =>
    rcases List.mem_cons.mp hv with heq | hv'
    · -- the head is the x64 variant: its step pushes the arm fragment
      subst heq
      have hw : strContains X64_MACOS "windows" = false := by decide
      have hl : strContains X64_MACOS "linux-gnu" = false := by decide
      have hstep : (homebrewStep true dist_dir bins release acc v).1 =
          acc.1 ++ [{ fragmentOf dist_dir bins release v with target_triples := [ARM64_MACOS] },
            fragmentOf dist_dir bins release v] := by
        simp [homebrewStep, hvx, hw, hl]
      simp only [List.foldl_cons]
      refine homebrewFold_mono true dist_dir bins release ws _ _ ?_
      rw [hstep]
      exact List.mem_append_right _ (by simp)
    · simp only [List.foldl_cons]
      exact ih _ hv'

/-- C6: for both the shell and the Homebrew installer generators, when the
release has a variant targeting `x86_64-apple-darwin` and none targeting
`aarch64-apple-darwin`, the generated fragment list contains an extra
fragment whose target list is exactly the arm64 macOS triple while its
archive id, zip style and binary file names are those of the x86_64 macOS
executable zip. -/
theorem C6_rosetta_fallback_fragment (dist_dir : String) (bins : List Binary)
    (release : Release) (variants : List ReleaseVariant)
    (hno_arm : ∀ v ∈ variants, v.target ≠ ARM64_MACOS) :
    ∀ v ∈ variants, v.target = X64_MACOS →
      (∃ f ∈ shellInstallerFragments dist_dir bins release variants,
        f.target_triples = [ARM64_MACOS] ∧
        f.id = (fragmentOf dist_dir bins release v).id ∧
        f.zip_style = (fragmentOf dist_dir bins release v).zip_style ∧
        f.binaries = (fragmentOf dist_dir bins release v).binaries) ∧
      (∃ f ∈ (homebrewInstallerFragments dist_dir bins release variants).1,
        f.target_triples = [ARM64_MACOS] ∧
        f.id = (fragmentOf dist_dir bins release v).id ∧
        f.zip_style = (fragmentOf dist_dir bins release v).zip_style ∧
        f.binaries = (fragmentOf dist_dir bins release v).binaries) := by
  intro v hv hvx
  have hfallback : do_rosetta_fallback variants = true := by
    simp only [do_rosetta_fallback, Bool.and_eq_true, Bool.not_eq_true']
    constructor
    · exact List.any_eq_true.mpr ⟨v, hv, by simp [hvx]⟩
    · rw [List.any_eq_false]
      intro x hx
      simp [hno_arm x hx]
  constructor
  · -- shell: direct membership in the flatMap
    have hw : strContains X64_MACOS "windows" = false := by decide
    refine ⟨{ fragmentOf dist_dir bins release v with target_triples := [ARM64_MACOS] },
      ?_, rfl, rfl, rfl, rfl⟩
    simp only [shellInstallerFragments, hfallback]
    refine List.mem_flatMap.mpr ⟨v, hv, ?_⟩
    simp [hvx, hw]
  · refine ⟨{ fragmentOf dist_dir bins release v with target_triples := [ARM64_MACOS] },
      ?_, rfl, rfl, rfl, rfl⟩
    simp only [homebrewInstallerFragments, hfallback]
    exact homebrewFold_arm_mem dist_dir bins release variants ([], none, none) v hv hvx

/-- The x64-macOS-only release of the C6 witness. -/
def c6Release : Release :=
  { (default : Release) with app_name := "my-app", id := "my-app", version := ⟨1, 0, 0, ""⟩ }

/-- The binary of the C6 witness. -/
def c6Binary : Binary :=
  { (default : Binary) with
    id := "my-app-v1.0.0-x86_64-apple-darwin",
    name := "my-app", file_name := "my-app", target := "x86_64-apple-darwin" }

/-- The x64 macOS variant of the C6 witness. -/
def c6Variant : ReleaseVariant :=
  ⟨"x86_64-apple-darwin", "my-app-x86_64-apple-darwin", [0], [], []⟩

/-- C6 (witness): a release with a single `x86_64-apple-darwin` variant (and
so no arm64 one) gets an arm64 fragment reusing the x64 archive in both the
shell and the Homebrew fragment lists. -/
theorem C6_rosetta_fallback_fragment_witness :
    (∃ f ∈ shellInstallerFragments "target/distrib" [c6Binary] c6Release [c6Variant],
      f.target_triples = [ARM64_MACOS] ∧
      f.id = (fragmentOf "target/distrib" [c6Binary] c6Release c6Variant).id ∧
      f.zip_style = (fragmentOf "target/distrib" [c6Binary] c6Release c6Variant).zip_style ∧
      f.binaries = (fragmentOf "target/distrib" [c6Binary] c6Release c6Variant).binaries) ∧
    (∃ f ∈ (homebrewInstallerFragments "target/distrib" [c6Binary] c6Release [c6Variant]).1,
      f.target_triples = [ARM64_MACOS] ∧
      f.id = (fragmentOf "target/distrib" [c6Binary] c6Release c6Variant).id ∧
      f.zip_style = (fragmentOf "target/distrib" [c6Binary] c6Release c6Variant).zip_style ∧
      f.binaries = (fragmentOf "target/distrib" [c6Binary] c6Release c6Variant).binaries) := by
  refine C6_rosetta_fallback_fragment "target/distrib" [c6Binary] c6Release [c6Variant]
    ?_ c6Variant (by simp) rfl
  intro x hx
  have hx' := List.mem_singleton.mp hx
  subst hx'
  decide

/-! ## Claim C4: Checksum artifacts never carry a checksum -/

/-- The artifact arena after `add_artifact_checksum`, in closed form: the
derived checksum artifact is appended and the original slot is back-linked. -/
theorem add_artifact_checksum_artifacts (st : Store) (tv i : Nat)
    (style : ChecksumStyle) :
    (add_artifact_checksum st tv i style).1.artifacts =
      ((st.artifacts ++ [checksumArtifactOf (st.artifacts.getD i default) style]).set i
        { (st.artifacts ++ [checksumArtifactOf (st.artifacts.getD i default) style]).getD
            i default with checksum := some st.artifacts.length }) := rfl

/-- C4: in every artifact-arena state reachable through the graph builder's
operations, no artifact of kind Checksum has a `some` checksum field —
`add_artifact_checksum` creates its derived artifact with `checksum = none`
and is only applied (at its two call sites) to executable-zip and installer
artifacts, never to a Checksum one. -/
theorem C4_checksum_artifacts_never_checksummed (arts : List Artifact)
    (h : ReachableArtifacts arts) :
    ∀ a ∈ arts, a.kind.isChecksumKind = true → a.checksum = none := by
  induction h with
  | empty =>
    intro a ha
    cases ha
  | push arts a hck hkind hr ih =>
    intro b hb hbk
    rcases List.mem_append.mp hb with h1 | h2
    · exact ih b h1 hbk
    · rw [List.mem_singleton.mp h2]
      exact hck
  | checksumStep arts variants to_variant i style hi hkind hr ih =>
    intro b hb hbk
    rw [add_artifact_checksum_artifacts] at hb
    rcases List.mem_or_eq_of_mem_set hb with h1 | h2
    · rcases List.mem_append.mp h1 with h3 | h4
      · exact ih b h3 hbk
      · rw [List.mem_singleton.mp h4]
        rfl
    · -- the back-linked slot keeps its (non-Checksum) kind
      exfalso
      have hgd : ((⟨[], arts, variants, [], []⟩ : Store).artifacts ++
          [checksumArtifactOf ((⟨[], arts, variants, [], []⟩ : Store).artifacts.getD
            i default) style]).getD i default = arts.get ⟨i, hi⟩ := by
        simp [List.getD, List.getElem?_append_left hi, List.getElem?_eq_getElem hi]
      have hbkind : b.kind = (arts.get ⟨i, hi⟩).kind := by
        have hb2 : b.kind = (((⟨[], arts, variants, [], []⟩ : Store).artifacts ++
            [checksumArtifactOf ((⟨[], arts, variants, [], []⟩ : Store).artifacts.getD
              i default) style]).getD i default).kind := by
          rw [h2]
        rw [hb2, hgd]
      rcases hkind with hk | ⟨impl_, hk⟩
      · rw [hbkind, hk] at hbk
        simp [ArtifactKind.isChecksumKind] at hbk
      · rw [hbkind, hk] at hbk
        simp [ArtifactKind.isChecksumKind] at hbk

/-- The executable-zip artifact of the C4 witness. -/
def c4Zip : Artifact :=
  { (default : Artifact) with
    id := "my-app-x86_64-unknown-linux-gnu.tar.xz",
    file_path := "target/distrib/my-app-x86_64-unknown-linux-gnu.tar.xz",
    kind := ArtifactKind.executableZip }

/-- The C4 witness arena: one executable zip, then its derived checksum. -/
def c4Arena : List Artifact :=
  (add_artifact_checksum ⟨[], [c4Zip], [default], [], []⟩ 0 0 ChecksumStyle.sha256).1.artifacts

/-- C4 (witness): the two-artifact arena obtained by pushing an executable
zip and checksumming it is reachable, and its Checksum artifact (at slot 1)
has no checksum of its own. -/
theorem C4_checksum_artifacts_never_checksummed_witness :
    ReachableArtifacts c4Arena ∧
    (c4Arena.getD 1 default).kind.isChecksumKind = true ∧
    (c4Arena.getD 1 default).checksum = none := by
  have h1 : ReachableArtifacts [c4Zip] := by
    have h := ReachableArtifacts.push [] c4Zip rfl rfl ReachableArtifacts.empty
    simpa using h
  have h2 : ReachableArtifacts c4Arena :=
    ReachableArtifacts.checksumStep [c4Zip] [default] 0 0 ChecksumStyle.sha256
      (by decide) (Or.inl rfl) h1
  refine ⟨h2, rfl, ?_⟩
  exact C4_checksum_artifacts_never_checksummed c4Arena h2 (c4Arena.getD 1 default)
    (by decide) rfl

/-! ## Grouping-map lemmas (shared by C2 and C5) -/

/-- `x` is recorded under key `k` somewhere in a grouped map. -/
def memGrouped {κ α : Type} (k : κ) (x : α) (l : List (κ × List α)) : Prop :=
  ∃ vs, (k, vs) ∈ l ∧ x ∈ vs

/-- Inserting `(k, v)` into a grouped map records exactly the old entries
plus `v` under `k`. -/
theorem memGrouped_insertGrouped {κ α : Type} [DecidableEq κ] (lt : κ → κ → Bool)
    (k : κ) (v : α) (l : List (κ × List α)) (k0 : κ) (x : α) :
    memGrouped k0 x (insertGrouped lt k v l) ↔ (k0 = k ∧ x = v) ∨ memGrouped k0 x l := by
  induction l with
  | nil =>
    simp only [insertGrouped, memGrouped, List.mem_singleton, Prod.mk.injEq]
    aesop
  | cons hd tl ih =>
    rcases hd with ⟨k', vs'⟩
    simp only [insertGrouped]
    by_cases hk : k = k'
    · subst hk
      simp only [if_true, reduceIte, memGrouped, List.mem_cons, Prod.mk.injEq,
        List.mem_append, List.mem_singleton]
      aesop
    · simp only [hk, if_false, reduceIte]
      by_cases hlt : lt k k'
      · simp only [hlt, if_true, reduceIte, memGrouped, List.mem_cons, Prod.mk.injEq,
          List.mem_singleton]
        aesop
      · simp only [hlt, Bool.false_eq_true, if_false, reduceIte]
        have hiff := ih
        simp only [memGrouped, List.mem_cons, Prod.mk.injEq] at hiff ⊢
        constructor
        · rintro ⟨vs, (⟨h1, h2⟩ | hmem), hx⟩
          · exact Or.inr ⟨vs, Or.inl ⟨h1, h2⟩, hx⟩
          · rcases hiff.mp ⟨vs, hmem, hx⟩ with h | ⟨vs2, hm2, hx2⟩
            · exact Or.inl h
            · exact Or.inr ⟨vs2, Or.inr hm2, hx2⟩
        · rintro (h | ⟨vs, (⟨h1, h2⟩ | hmem), hx⟩)
          · rcases hiff.mpr (Or.inl h) with ⟨vs2, hm2, hx2⟩
            exact ⟨vs2, Or.inr hm2, hx2⟩
          · exact ⟨vs, Or.inl ⟨h1, h2⟩, hx⟩
          · rcases hiff.mpr (Or.inr ⟨vs, hmem, hx⟩) with ⟨vs2, hm2, hx2⟩
            exact ⟨vs2, Or.inr hm2, hx2⟩

/-- Folding insertions over `acc` records exactly the pairs plus `acc`'s
entries. -/
theorem memGrouped_foldl {κ α : Type} [DecidableEq κ] (lt : κ → κ → Bool)
    (pairs : List (κ × α)) (acc : List (κ × List α)) (k0 : κ) (x : α) :
    memGrouped k0 x (pairs.foldl (fun acc kv => insertGrouped lt kv.1 kv.2 acc) acc) ↔
      (k0, x) ∈ pairs ∨ memGrouped k0 x acc := by
  induction pairs generalizing acc with
  | nil => simp
  | cons hd tl ih =>
    simp only [List.foldl_cons, List.mem_cons]
    rw [ih, memGrouped_insertGrouped]
    constructor
    · rintro (h | (⟨h1, h2⟩ | h))
      · exact Or.inl (Or.inr h)
      · exact Or.inl (Or.inl (by rw [h1, h2]))
      · exact Or.inr h
    · rintro ((heq | h) | h)
      · rcases Prod.mk.injEq .. ▸ heq with ⟨h1, h2⟩
        exact Or.inr (Or.inl ⟨h1, h2⟩)
      · exact Or.inl h
      · exact Or.inr (Or.inr h)

/-- Membership in a full grouped map is exactly membership among the
inserted pairs. -/
theorem memGrouped_groupAll {κ α : Type} [DecidableEq κ] (lt : κ → κ → Bool)
    (pairs : List (κ × α)) (k0 : κ) (x : α) :
    memGrouped k0 x (groupAll lt pairs) ↔ (k0, x) ∈ pairs := by
  rw [groupAll, memGrouped_foldl]
  simp [memGrouped]

/-! ## Claim C2: empty destination list iff no compile step -/

/-- Membership in the `(target, BinaryIdx)` insertion sequence of
`compute_cargo_builds`' target map. -/
theorem mem_buildPairs (bins : List Binary) (t : String) (i : Nat) :
    (t, i) ∈ buildPairs bins ↔
      ∃ b, bins.get? i = some b ∧ needsBuild b = true ∧ t = b.target := by
  simp only [buildPairs, List.mem_filterMap, List.mem_range]
  constructor
  · rintro ⟨j, hj, hf⟩
    split at hf
    next b heq =>
      split at hf
      next hnb =>
        injection hf with hf'
        injection hf' with h1 h2
        subst h2
        exact ⟨b, heq, hnb, h1.symm⟩
      next hnb => cases hf
    next heq => cases hf
  · rintro ⟨b, hget, hnb, rfl⟩
    have hlen : i < bins.length := by
      by_contra hc
      push_neg at hc
      rw [List.get?_eq_none.mpr hc] at hget
      cases hget
    refine ⟨i, hlen, ?_⟩
    rw [hget]
    simp [hnb]

/-- The rustup steps of a target contain no cargo step. -/
theorem rustupStepsFor_no_cargo (cfg : BuildConfig) (target : String) :
    ∀ s ∈ rustupStepsFor cfg target, ∀ cb, s ≠ BuildStep.cargo cb := by
  intro s hs cb
  simp only [rustupStepsFor] at hs
  split at hs
  · split at hs
    · rcases List.mem_singleton.mp hs with rfl
      simp
    · cases hs
  · cases hs

/-- The cargo steps of one target expect exactly that target's gathered
binary indices: `i` is expected by some cargo step of
`cargoStepsFor cfg bins t idxs` iff `i ∈ idxs`. -/
theorem cargo_mem_cargoStepsFor (cfg : BuildConfig) (bins : List Binary)
    (t : String) (idxs : List Nat) (i : Nat) :
    (∃ cb, BuildStep.cargo cb ∈ cargoStepsFor cfg bins t idxs ∧
      i ∈ cb.expected_binaries) ↔ i ∈ idxs := by
  simp only [cargoStepsFor]
  by_cases hp : cfg.precise_builds = true
  · rw [if_pos hp]
    constructor
    · rintro ⟨cb, hmem, hi⟩
      rcases List.mem_map.mp hmem with ⟨g, hg, hstep⟩
      have hcb : cb.expected_binaries = g.2 := by
        rw [← BuildStep.cargo.injEq .. |>.mp hstep]
      rw [hcb] at hi
      have hmg : memGrouped g.1 i
          (groupAll specKeyLt (idxs.map (fun bin_idx => (binKey bins bin_idx, bin_idx)))) :=
        ⟨g.2, by simpa using hg, hi⟩
      have := (memGrouped_groupAll _ _ _ _).mp hmg
      rcases List.mem_map.mp this with ⟨j, hj, heq⟩
      rcases Prod.mk.injEq .. ▸ heq with ⟨h1, h2⟩
      rw [← h2]
      exact hj
    · intro hi
      have hp2 : (binKey bins i, i) ∈
          idxs.map (fun bin_idx => (binKey bins bin_idx, bin_idx)) :=
        List.mem_map.mpr ⟨i, hi, rfl⟩
      rcases (memGrouped_groupAll specKeyLt _ (binKey bins i) i).mpr hp2 with
        ⟨vs, hvs, hiv⟩
      exact ⟨_, List.mem_map.mpr ⟨(binKey bins i, vs), hvs, rfl⟩, hiv⟩
  · rw [if_neg hp]
    constructor
    · rintro ⟨cb, hmem, hi⟩
      rcases List.mem_singleton.mp hmem with heq
      have hcb : cb.expected_binaries = idxs := by
        rw [BuildStep.cargo.injEq .. |>.mp heq]
      rw [← hcb]
      exact hi
    · intro hi
      exact ⟨_, List.mem_singleton.mpr rfl, hi⟩

/-- Which binaries the cargo steps of `compute_cargo_builds` expect: exactly
those whose destination lists make `needsBuild` true. -/
theorem cargo_mem_compute_cargo_builds (cfg : BuildConfig) (bins : List Binary) (i : Nat) :
    (∃ cb, BuildStep.cargo cb ∈ compute_cargo_builds cfg bins ∧
      i ∈ cb.expected_binaries) ↔
      ∃ b, bins.get? i = some b ∧ needsBuild b = true := by
  simp only [compute_cargo_builds]
  constructor
  · rintro ⟨cb, hmem, hi⟩
    rcases List.mem_flatMap.mp hmem with ⟨g, hg, hstep⟩
    simp only [stepsForTarget] at hstep
    rcases List.mem_append.mp hstep with hr | hc
    · exact absurd rfl (rustupStepsFor_no_cargo cfg g.1 _ hr cb)
    · have hidx : i ∈ g.2 := (cargo_mem_cargoStepsFor cfg bins g.1 g.2 i).mp ⟨cb, hc, hi⟩
      have hmg : memGrouped g.1 i (groupAll strLtB (buildPairs bins)) :=
        ⟨g.2, by simpa using hg, hidx⟩
      rcases (mem_buildPairs bins g.1 i).mp ((memGrouped_groupAll _ _ _ _).mp hmg) with
        ⟨b, hb, hnb, ht⟩
      exact ⟨b, hb, hnb⟩
  · rintro ⟨b, hb, hnb⟩
    have hp : (b.target, i) ∈ buildPairs bins :=
      (mem_buildPairs bins b.target i).mpr ⟨b, hb, hnb, rfl⟩
    rcases (memGrouped_groupAll strLtB _ b.target i).mpr hp with ⟨vs, hvs, hiv⟩
    rcases (cargo_mem_cargoStepsFor cfg bins b.target vs i).mpr hiv with ⟨cb, hmem, hexp⟩
    refine ⟨cb, List.mem_flatMap.mpr ⟨(b.target, vs), hvs, ?_⟩, hexp⟩
    simp only [stepsForTarget]
    exact List.mem_append_right _ hmem

/-- The kind-specific steps are packaging steps, neither copies nor zips. -/
theorem kindStepsFor_cases (a : Artifact) :
    ∀ s ∈ kindStepsFor a,
      s.isPackagingStep = true ∧ s.isCopyStep = false ∧ s.isZipStep = false := by
  intro s hs
  simp only [kindStepsFor] at hs
  split at hs
  · cases hs
  · cases hs
  · rcases List.mem_singleton.mp hs with rfl
    exact ⟨rfl, rfl, rfl⟩
  · rcases List.mem_singleton.mp hs with rfl
    exact ⟨rfl, rfl, rfl⟩

/-- The asset-copy steps are packaging copy steps, never zips. -/
theorem copyStepsFor_cases (is_dir : String → Bool) (archive : Archive) :
    ∀ s ∈ copyStepsFor is_dir archive,
      s.isPackagingStep = true ∧ s.isCopyStep = true ∧ s.isZipStep = false := by
  intro s hs
  rcases List.mem_map.mp hs with ⟨asset, hasset, heq⟩
  rw [← heq]
  by_cases hd : is_dir asset.2 = true
  · simp only [hd, if_true, reduceIte]
    exact ⟨rfl, rfl, rfl⟩
  · simp only [Bool.not_eq_true] at hd
    simp only [hd, Bool.false_eq_true, if_false, reduceIte]
    exact ⟨rfl, rfl, rfl⟩

/-- Every step expanded from an artifact is a packaging step. -/
theorem stepsForArtifact_packaging (is_dir : String → Bool) (a : Artifact) :
    ∀ s ∈ stepsForArtifact is_dir a, s.isPackagingStep = true := by
  intro s hs
  rcases List.mem_append.mp hs with hk | ha
  · exact (kindStepsFor_cases a s hk).1
  · simp only [archiveStepsFor] at ha
    split at ha
    next archive harch =>
      rcases List.mem_append.mp ha with hc | hz
      · exact (copyStepsFor_cases is_dir archive s hc).1
      · rcases List.mem_singleton.mp hz with rfl
        rfl
    next harch => cases ha

/-- A packaging step is not a compile step. -/
theorem not_compile_of_packaging (s : BuildStep) (h : s.isPackagingStep = true) :
    s.isCompileStep = false := by
  cases s <;> first | rfl | cases h

/-- A cargo step belongs to `compute_build_steps` exactly when it belongs
to the compile phase `compute_cargo_builds` (the artifact passes emit only
packaging steps). -/
theorem cargo_mem_compute_build_steps (cfg : BuildConfig) (is_dir : String → Bool)
    (bins : List Binary) (arts : List Artifact) (cb : CargoBuildStep) :
    BuildStep.cargo cb ∈ compute_build_steps cfg is_dir bins arts ↔
      BuildStep.cargo cb ∈ compute_cargo_builds cfg bins := by
  simp only [compute_build_steps]
  constructor
  · intro h
    rcases List.mem_append.mp h with h1 | h2
    · rcases List.mem_append.mp h1 with h3 | h4
      · exact h3
      · exfalso
        rcases List.mem_flatMap.mp h4 with ⟨a, ha, hmem⟩
        have := stepsForArtifact_packaging is_dir a _ hmem
        cases this
    · exfalso
      rcases List.mem_flatMap.mp h2 with ⟨a, ha, hmem⟩
      have := stepsForArtifact_packaging is_dir a _ hmem
      cases this
  · intro h
    exact List.mem_append_left _ (List.mem_append_left _ h)

/-- C2: with the store's (always-empty, see `target_symbol_kind`) symbol
destination lists, a binary's `copy_exe_to` list is empty iff
`compute_build_steps` emits no Cargo compile step listing that binary among
its expected binaries. -/
theorem C2_empty_copy_exe_iff_no_compile_step (cfg : BuildConfig)
    (is_dir : String → Bool) (bins : List Binary) (arts : List Artifact)
    (hsym : ∀ b ∈ bins, b.copy_symbols_to = []) (i : Nat) (hi : i < bins.length) :
    (bins.get ⟨i, hi⟩).copy_exe_to = [] ↔
      ∀ cb, BuildStep.cargo cb ∈ compute_build_steps cfg is_dir bins arts →
        i ∉ cb.expected_binaries := by
  have hget : bins.get? i = some (bins.get ⟨i, hi⟩) := List.get?_eq_get hi
  have hneeds : needsBuild (bins.get ⟨i, hi⟩) =
      !(bins.get ⟨i, hi⟩).copy_exe_to.isEmpty := by
    have hsy : (bins.get ⟨i, hi⟩).copy_symbols_to = [] :=
      hsym _ (List.get_mem bins i hi)
    simp only [needsBuild, hsy, List.isEmpty_nil, Bool.not_true, Bool.or_false]
  constructor
  · intro hempty cb hmem hexp
    have hex : ∃ b, bins.get? i = some b ∧ needsBuild b = true :=
      (cargo_mem_compute_cargo_builds cfg bins i).mp
        ⟨cb, (cargo_mem_compute_build_steps cfg is_dir bins arts cb).mp hmem, hexp⟩
    rcases hex with ⟨b, hb, hnb⟩
    rw [hget] at hb
    injection hb with hb'
    subst hb'
    rw [hneeds, hempty] at hnb
    cases hnb
  · intro hnone
    by_contra hne
    have hnb : needsBuild (bins.get ⟨i, hi⟩) = true := by
      rw [hneeds]
      simp only [Bool.not_eq_true']
      rcases hl : (bins.get ⟨i, hi⟩).copy_exe_to with _ | ⟨p, rest⟩
      · exact absurd hl hne
      · rfl
    rcases (cargo_mem_compute_cargo_builds cfg bins i).mpr
        ⟨bins.get ⟨i, hi⟩, hget, hnb⟩ with ⟨cb, hmem, hexp⟩
    exact hnone cb ((cargo_mem_compute_build_steps cfg is_dir bins arts cb).mpr hmem) hexp

/-- The platform→symbol-kind policy table suppresses symbols on every
platform (all branches of `target_symbol_kind` return `None`). -/
theorem target_symbol_kind_none (target : String) : target_symbol_kind target = none := by
  rw [target_symbol_kind]
  split
  · rfl
  · split
    · rfl
    · rfl

/-- `require_binary` never grows a binary's `copy_symbols_to` list (the
symbols branch is dead while `target_symbol_kind` is all-`None`); combined
with `add_variant` creating every binary with an empty `copy_symbols_to`,
the hypothesis of the C2 theorem holds in every store the graph builder
produces. -/
theorem require_binary_copy_symbols_to (dist_dir : String) (st : Store)
    (for_artifact for_variant binary_idx : Nat) (dest_path : String) (j : Nat) :
    (((require_binary dist_dir st for_artifact for_variant binary_idx
        dest_path).binaries.getD j default).copy_symbols_to) =
      ((st.binaries.getD j default).copy_symbols_to) := by
  simp only [require_binary, target_symbol_kind_none, ite_self]
  simp only [List.getD, List.get?_eq_getElem?]
  by_cases hj : j = binary_idx
  · subst hj
    by_cases hlen : j < st.binaries.length
    · rw [List.getElem?_set_self hlen]
      rfl
    · push_neg at hlen
      rw [List.getElem?_eq_none (by simpa using hlen), List.getElem?_eq_none hlen]
  · rw [List.getElem?_set_ne (fun h => hj h.symm)]

/-- The build configuration of the C2 witness. -/
def c2Cfg : BuildConfig := ⟨true, "", "x86_64-unknown-linux-gnu", none⟩

/-- The two binaries of the C2 witness: one required by an archive (its
`copy_exe_to` holds one destination), one never required. -/
def c2Bins : List Binary :=
  [{ (default : Binary) with
      id := "a-v1.0.0-t1", pkg_spec := "p", target := "t1",
      copy_exe_to := ["target/distrib/dir/a"] },
   { (default : Binary) with
      id := "b-v1.0.0-t1", pkg_spec := "p", target := "t1" }]

/-- C2 (witness): in the two-binary store, the required binary (index 0,
nonempty `copy_exe_to`) is expected by a compile step while the idle binary
(index 1, empty `copy_exe_to`) is expected by none. -/
theorem C2_empty_copy_exe_iff_no_compile_step_witness :
    ((c2Bins.get ⟨1, by decide⟩).copy_exe_to = [] ↔
      ∀ cb, BuildStep.cargo cb ∈ compute_build_steps c2Cfg (fun _ => false) c2Bins [] →
        1 ∉ cb.expected_binaries) ∧
    ((c2Bins.get ⟨0, by decide⟩).copy_exe_to = [] ↔
      ∀ cb, BuildStep.cargo cb ∈ compute_build_steps c2Cfg (fun _ => false) c2Bins [] →
        0 ∉ cb.expected_binaries) ∧
    (c2Bins.get ⟨1, by decide⟩).copy_exe_to = [] ∧
    (c2Bins.get ⟨0, by decide⟩).copy_exe_to ≠ [] := by
  refine ⟨?_, ?_, by decide, by decide⟩
  · exact C2_empty_copy_exe_iff_no_compile_step c2Cfg (fun _ => false) c2Bins []
      (by decide) 1 (by decide)
  · exact C2_empty_copy_exe_iff_no_compile_step c2Cfg (fun _ => false) c2Bins []
      (by decide) 0 (by decide)

/-! ## Claim C5: build-step ordering -/

/-- Position ordering across a split: whenever `P` fails on the right part
and `Q` fails on the left part, a `P`-position precedes every `Q`-position. -/
theorem lt_of_partition {α : Type} (l A B : List α) (hl : l = A ++ B)
    (P Q : α → Prop) (hB : ∀ x ∈ B, ¬P x) (hA : ∀ x ∈ A, ¬Q x)
    (i j : Nat) (hi : i < l.length) (hj : j < l.length)
    (hP : P (l.get ⟨i, hi⟩)) (hQ : Q (l.get ⟨j, hj⟩)) : i < j := by
  subst hl
  rw [List.get_eq_getElem] at hP hQ
  have hiA : i < A.length := by
    by_contra hc
    push_neg at hc
    rw [List.getElem_append_right hc] at hP
    exact hB _ (List.getElem_mem _) hP
  have hjB : A.length ≤ j := by
    by_contra hc
    push_neg at hc
    rw [List.getElem_append_left hc] at hQ
    exact hA _ (List.getElem_mem _) hQ
  omega

/-- Every step of the compile phase is a compile step. -/
theorem compute_cargo_builds_compile (cfg : BuildConfig) (bins : List Binary) :
    ∀ s ∈ compute_cargo_builds cfg bins, s.isCompileStep = true := by
  intro s hs
  rcases List.mem_flatMap.mp hs with ⟨g, hg, hmem⟩
  simp only [stepsForTarget] at hmem
  rcases List.mem_append.mp hmem with hr | hc
  · simp only [rustupStepsFor] at hr
    split at hr
    · split at hr
      · rcases List.mem_singleton.mp hr with rfl
        rfl
      · cases hr
    · cases hr
  · simp only [cargoStepsFor] at hc
    split at hc
    · rcases List.mem_map.mp hc with ⟨g2, hg2, heq⟩
      rw [← heq]
      rfl
    · rcases List.mem_singleton.mp hc with rfl
      rfl

/-- A compile step is not a packaging step. -/
theorem not_packaging_of_compile (s : BuildStep) (h : s.isCompileStep = true) :
    s.isPackagingStep = false := by
  cases s <;> first | rfl | cases h

/-- The positions of an enumerated-and-filtered artifact list carry
pairwise-distinct keys. -/
theorem enumFilter_keys_nodup (p : Artifact → Bool) (arts : List Artifact) :
    ((enumFilter p arts).map Prod.fst).Nodup := by
  refine List.Sublist.nodup (List.Sublist.map Prod.fst (List.filter_sublist arts.enum)) ?_
  rw [List.enum_map_fst]
  exact List.nodup_range _

/-- Dropping the position tags from a filtered enumeration recovers the
plain filter. -/
theorem enumFrom_filter_map_snd {α : Type} (p : α → Bool) (n : Nat) (l : List α) :
    ((List.enumFrom n l).filter (fun ka => p ka.2)).map Prod.snd = l.filter p := by
  induction l generalizing n with
  | nil => rfl
  | cons hd tl ih =>
    simp only [List.enumFrom, List.filter_cons]
    by_cases hp : p hd = true
    · simp only [hp, if_true, reduceIte, List.map_cons, ih]
    · simp only [hp, Bool.false_eq_true, if_false, reduceIte, ih]

/-- `enumFilter` projected to the artifacts is `filter`. -/
theorem enumFilter_map_snd (p : Artifact → Bool) (arts : List Artifact) :
    (enumFilter p arts).map Prod.snd = arts.filter p := by
  simp only [enumFilter, List.enum]
  exact enumFrom_filter_map_snd p 0 arts

/-- Projecting the tags away from one tagged artifact pass yields its plain
step expansion. -/
theorem taggedArtifactSteps_map_snd (is_dir : String → Bool) (g : Bool)
    (arts : List (Nat × Artifact)) :
    (taggedArtifactSteps is_dir g arts).map Prod.snd =
      arts.flatMap (fun ka => stepsForArtifact is_dir ka.2) := by
  simp only [taggedArtifactSteps, List.map_flatMap]
  congr 1
  funext ka
  simp [List.map_map, Function.comp]

/-- One tagged filtered pass projects to the per-artifact expansion of the
plain filtered artifact list. -/
theorem taggedArtifactSteps_enumFilter_map_snd (is_dir : String → Bool) (g : Bool)
    (p : Artifact → Bool) (arts : List Artifact) :
    (taggedArtifactSteps is_dir g (enumFilter p arts)).map Prod.snd =
      (arts.filter p).flatMap (stepsForArtifact is_dir) := by
  rw [taggedArtifactSteps_map_snd, ← enumFilter_map_snd p arts, List.flatMap_map]

/-- Dropping the tags of `taggedBuildSteps` recovers `compute_build_steps`. -/
theorem taggedBuildSteps_map_snd (cfg : BuildConfig) (is_dir : String → Bool)
    (bins : List Binary) (arts : List Artifact) :
    (taggedBuildSteps cfg is_dir bins arts).map Prod.snd =
      compute_build_steps cfg is_dir bins arts := by
  simp only [taggedBuildSteps, compute_build_steps, List.map_append]
  rw [taggedArtifactSteps_enumFilter_map_snd, taggedArtifactSteps_enumFilter_map_snd]
  congr 1
  congr 1
  simp [List.map_map, Function.comp]

/-- Every element of one tagged pass carries a tag from that pass's list
and a step from the tagged artifact. -/
theorem taggedArtifactSteps_tag (is_dir : String → Bool) (g : Bool)
    (arts : List (Nat × Artifact)) :
    ∀ x ∈ taggedArtifactSteps is_dir g arts,
      ∃ k a, (k, a) ∈ arts ∧ x.1 = StepSource.fromArtifact g k ∧
        x.2 ∈ stepsForArtifact is_dir a := by
  intro x hx
  rcases List.mem_flatMap.mp hx with ⟨ka, hka, hmem⟩
  rcases List.mem_map.mp hmem with ⟨s, hs, heq⟩
  refine ⟨ka.1, ka.2, by simpa using hka, ?_, ?_⟩
  · rw [← heq]
  · rw [← heq]
    exact hs

/-- A tagged pass never carries a foreign key. -/
theorem taggedArtifactSteps_tag_ne (is_dir : String → Bool) (g : Bool)
    (arts : List (Nat × Artifact)) (k : Nat) (hk : k ∉ arts.map Prod.fst) :
    ∀ x ∈ taggedArtifactSteps is_dir g arts,
      x.1 ≠ StepSource.fromArtifact g k := by
  intro x hx heq
  rcases taggedArtifactSteps_tag is_dir g arts x hx with ⟨k', a, hmem, htag, _⟩
  rw [htag] at heq
  have hk' : k' = k := (StepSource.fromArtifact.injEq .. |>.mp heq).2
  subst hk'
  exact hk (List.mem_map.mpr ⟨(k', a), hmem, rfl⟩)

/-- A tagged pass never carries the other globality flag. -/
theorem taggedArtifactSteps_tag_ne_flag (is_dir : String → Bool) (g : Bool)
    (arts : List (Nat × Artifact)) (k : Nat) :
    ∀ x ∈ taggedArtifactSteps is_dir g arts,
      x.1 ≠ StepSource.fromArtifact (!g) k := by
  intro x hx heq
  rcases taggedArtifactSteps_tag is_dir g arts x hx with ⟨k', a, hmem, htag, _⟩
  rw [htag] at heq
  have hg : g = !g := (StepSource.fromArtifact.injEq .. |>.mp heq).1
  cases g <;> cases hg

/-- The compile-phase prefix of the tagged steps only carries the compile
tag. -/
theorem compile_tagged_tag (cfg : BuildConfig) (bins : List Binary) :
    ∀ x ∈ (compute_cargo_builds cfg bins).map (fun s => (StepSource.compile, s)),
      x.1 = StepSource.compile := by
  intro x hx
  rcases List.mem_map.mp hx with ⟨s, hs, heq⟩
  rw [← heq]

/-- Within the tagged pass of one artifact list, every copy step carrying a
key `k` precedes every zip step carrying the same key, whatever surrounds
the pass as long as the surroundings never carry a `(g, ·)` tag. -/
theorem tagged_copy_lt_zip_aux (is_dir : String → Bool) (g : Bool)
    (Pre Post : List (StepSource × BuildStep)) (arts' : List (Nat × Artifact))
    (hkeys : (arts'.map Prod.fst).Nodup)
    (hPre : ∀ x ∈ Pre, ∀ k', x.1 ≠ StepSource.fromArtifact g k')
    (hPost : ∀ x ∈ Post, ∀ k', x.1 ≠ StepSource.fromArtifact g k')
    (l : List (StepSource × BuildStep))
    (hl : l = Pre ++ taggedArtifactSteps is_dir g arts' ++ Post)
    (i j : Nat) (hi : i < l.length) (hj : j < l.length) (k : Nat)
    (hti : (l.get ⟨i, hi⟩).1 = StepSource.fromArtifact g k)
    (htj : (l.get ⟨j, hj⟩).1 = StepSource.fromArtifact g k)
    (hci : (l.get ⟨i, hi⟩).2.isCopyStep = true)
    (hzj : (l.get ⟨j, hj⟩).2.isZipStep = true) : i < j := by
  -- locate the artifact with key `k` via position `i`'s element
  have hmem_i : l.get ⟨i, hi⟩ ∈ Pre ++ taggedArtifactSteps is_dir g arts' ++ Post := by
    rw [← hl]
    exact List.get_mem l i hi
  have hx : l.get ⟨i, hi⟩ ∈ taggedArtifactSteps is_dir g arts' := by
    rcases List.mem_append.mp hmem_i with h1 | h2
    · rcases List.mem_append.mp h1 with h3 | h4
      · exact absurd hti (hPre _ h3 k)
      · exact h4
    · exact absurd hti (hPost _ h2 k)
  rcases taggedArtifactSteps_tag is_dir g arts' _ hx with ⟨k', a, hmem, htag, hstep⟩
  have hk' : k' = k := by
    have heq := htag.symm.trans hti
    exact (StepSource.fromArtifact.injEq .. |>.mp heq).2
  subst hk'
  -- split the artifact list around `(k', a)` and use key distinctness
  rcases List.append_of_mem hmem with ⟨l1, l2, hsplit⟩
  have hkeys2 := hkeys
  rw [hsplit] at hkeys2
  simp only [List.map_append, List.map_cons] at hkeys2
  rcases List.nodup_append.mp hkeys2 with ⟨hn1, hn2, hdisj⟩
  have hk_not_l1 : k' ∉ l1.map Prod.fst := fun hmem1 => hdisj hmem1 (List.mem_cons_self ..)
  have hk_not_l2 : k' ∉ l2.map Prod.fst := (List.nodup_cons.mp hn2).1
  have hT : taggedArtifactSteps is_dir g arts' =
      taggedArtifactSteps is_dir g l1 ++
      (stepsForArtifact is_dir a).map (fun s => (StepSource.fromArtifact g k', s)) ++
      taggedArtifactSteps is_dir g l2 := by
    rw [hsplit]
    simp [taggedArtifactSteps, List.flatMap_append, List.flatMap_cons, List.append_assoc]
  have hP_ne_l2 := taggedArtifactSteps_tag_ne is_dir g l2 k' hk_not_l2
  have hQ_ne_l1 := taggedArtifactSteps_tag_ne is_dir g l1 k' hk_not_l1
  rcases harch : a.archive with _ | ar
  · -- no archive: the artifact has no zip step at all, `Q` fails on the right
    refine lt_of_partition l
      (Pre ++ (taggedArtifactSteps is_dir g l1 ++
        (stepsForArtifact is_dir a).map (fun s => (StepSource.fromArtifact g k', s))))
      (taggedArtifactSteps is_dir g l2 ++ Post) ?_
      (fun x => x.1 = StepSource.fromArtifact g k' ∧ x.2.isCopyStep = true)
      (fun x => x.1 = StepSource.fromArtifact g k' ∧ x.2.isZipStep = true)
      ?_ ?_ i j hi hj ⟨hti, hci⟩ ⟨htj, hzj⟩
    · rw [hl, hT]
      simp [List.append_assoc]
    · rintro x hx2 ⟨ht, hc⟩
      rcases List.mem_append.mp hx2 with h1 | h2
      · exact hP_ne_l2 x h1 ht
      · exact hPost x h2 k' ht
    · rintro x hx2 ⟨ht, hz⟩
      rcases List.mem_append.mp hx2 with h1 | h2
      · exact hPre x h1 k' ht
      · rcases List.mem_append.mp h2 with h3 | h4
        · exact hQ_ne_l1 x h3 ht
        · rcases List.mem_map.mp h4 with ⟨s, hs, heq⟩
          rw [stepsForArtifact, archiveStepsFor, harch, List.append_nil] at hs
          have hcase := kindStepsFor_cases a s hs
          rw [← heq] at hz
          rw [hcase.2.2] at hz
          cases hz
  · -- with an archive: copies sit left of the single zip step
    refine lt_of_partition l
      (Pre ++ (taggedArtifactSteps is_dir g l1 ++
        ((kindStepsFor a ++ copyStepsFor is_dir ar).map
          (fun s => (StepSource.fromArtifact g k', s)))))
      ([(StepSource.fromArtifact g k', zipStepFor a ar)] ++
        (taggedArtifactSteps is_dir g l2 ++ Post)) ?_
      (fun x => x.1 = StepSource.fromArtifact g k' ∧ x.2.isCopyStep = true)
      (fun x => x.1 = StepSource.fromArtifact g k' ∧ x.2.isZipStep = true)
      ?_ ?_ i j hi hj ⟨hti, hci⟩ ⟨htj, hzj⟩
    · rw [hl, hT]
      simp [stepsForArtifact, archiveStepsFor, harch, List.map_append, List.append_assoc]
    · rintro x hx2 ⟨ht, hc⟩
      rcases List.mem_append.mp hx2 with h1 | h2
      · rcases List.mem_singleton.mp h1 with rfl
        cases hc
      · rcases List.mem_append.mp h2 with h3 | h4
        · exact hP_ne_l2 x h3 ht
        · exact hPost x h4 k' ht
    · rintro x hx2 ⟨ht, hz⟩
      rcases List.mem_append.mp hx2 with h1 | h2
      · exact hPre x h1 k' ht
      · rcases List.mem_append.mp h2 with h3 | h4
        · exact hQ_ne_l1 x h3 ht
        · rcases List.mem_map.mp h4 with ⟨s, hs, heq⟩
          rw [← heq] at hz
          rcases List.mem_append.mp hs with h5 | h6
          · rw [(kindStepsFor_cases a s h5).2.2] at hz
            cases hz
          · rw [(copyStepsFor_cases is_dir ar s h6).2.2] at hz
            cases hz

/-- C5: in the step list produced by `compute_build_steps`, every
compile/toolchain step (Cargo, Rustup) precedes every packaging step; in
the source-tagged rendering of the same list (first conjunct: the tags
project back onto `compute_build_steps`), every step derived from a
non-global artifact precedes every step derived from a global artifact;
and within one artifact's steps, every static-asset copy step precedes its
single archive (Zip) step. -/
theorem C5_build_step_ordering (cfg : BuildConfig) (is_dir : String → Bool)
    (bins : List Binary) (arts : List Artifact) :
    ((taggedBuildSteps cfg is_dir bins arts).map Prod.snd =
      compute_build_steps cfg is_dir bins arts) ∧
    (∀ i j (hi : i < (compute_build_steps cfg is_dir bins arts).length)
        (hj : j < (compute_build_steps cfg is_dir bins arts).length),
      ((compute_build_steps cfg is_dir bins arts).get ⟨i, hi⟩).isCompileStep = true →
      ((compute_build_steps cfg is_dir bins arts).get ⟨j, hj⟩).isPackagingStep = true →
      i < j) ∧
    (∀ i j (hi : i < (taggedBuildSteps cfg is_dir bins arts).length)
        (hj : j < (taggedBuildSteps cfg is_dir bins arts).length) (ki kj : Nat),
      ((taggedBuildSteps cfg is_dir bins arts).get ⟨i, hi⟩).1 =
        StepSource.fromArtifact false ki →
      ((taggedBuildSteps cfg is_dir bins arts).get ⟨j, hj⟩).1 =
        StepSource.fromArtifact true kj →
      i < j) ∧
    (∀ i j (hi : i < (taggedBuildSteps cfg is_dir bins arts).length)
        (hj : j < (taggedBuildSteps cfg is_dir bins arts).length) (g : Bool) (k : Nat),
      ((taggedBuildSteps cfg is_dir bins arts).get ⟨i, hi⟩).1 =
        StepSource.fromArtifact g k →
      ((taggedBuildSteps cfg is_dir bins arts).get ⟨j, hj⟩).1 =
        StepSource.fromArtifact g k →
      ((taggedBuildSteps cfg is_dir bins arts).get ⟨i, hi⟩).2.isCopyStep = true →
      ((taggedBuildSteps cfg is_dir bins arts).get ⟨j, hj⟩).2.isZipStep = true →
      i < j) := by
  refine ⟨taggedBuildSteps_map_snd cfg is_dir bins arts, ?_, ?_, ?_⟩
  · -- compile steps precede packaging steps
    intro i j hi hj hP hQ
    refine lt_of_partition (compute_build_steps cfg is_dir bins arts)
      (compute_cargo_builds cfg bins)
      ((arts.filter (fun a => !a.is_global)).flatMap (stepsForArtifact is_dir) ++
        (arts.filter (fun a => a.is_global)).flatMap (stepsForArtifact is_dir))
      ?_ (fun s => s.isCompileStep = true) (fun s => s.isPackagingStep = true)
      ?_ ?_ i j hi hj hP hQ
    · rw [compute_build_steps, List.append_assoc]
    · intro x hx hPx
      have hpack : x.isPackagingStep = true := by
        rcases List.mem_append.mp hx with h1 | h2
        · rcases List.mem_flatMap.mp h1 with ⟨a, ha, hmem⟩
          exact stepsForArtifact_packaging is_dir a x hmem
        · rcases List.mem_flatMap.mp h2 with ⟨a, ha, hmem⟩
          exact stepsForArtifact_packaging is_dir a x hmem
      rw [not_compile_of_packaging x hpack] at hPx
      cases hPx
    · intro x hx hQx
      rw [not_packaging_of_compile x (compute_cargo_builds_compile cfg bins x hx)] at hQx
      cases hQx
  · -- non-global artifact steps precede global artifact steps
    intro i j hi hj ki kj hPt hQt
    refine lt_of_partition (taggedBuildSteps cfg is_dir bins arts)
      ((compute_cargo_builds cfg bins).map (fun s => (StepSource.compile, s)) ++
        taggedArtifactSteps is_dir false (enumFilter (fun a => !a.is_global) arts))
      (taggedArtifactSteps is_dir true (enumFilter (fun a => a.is_global) arts))
      ?_ (fun x => x.1 = StepSource.fromArtifact false ki)
      (fun x => x.1 = StepSource.fromArtifact true kj)
      ?_ ?_ i j hi hj hPt hQt
    · rw [taggedBuildSteps]
    · intro x hx hPx
      exact taggedArtifactSteps_tag_ne_flag is_dir true _ ki x hx hPx
    · intro x hx hQx
      rcases List.mem_append.mp hx with h1 | h2
      · rw [compile_tagged_tag cfg bins x h1] at hQx
        cases hQx
      · exact taggedArtifactSteps_tag_ne_flag is_dir false _ kj x h2 hQx
  · -- within one artifact, copies precede the zip step
    intro i j hi hj g k hti htj hci hzj
    rcases g with _ | _
    · refine tagged_copy_lt_zip_aux is_dir false
        ((compute_cargo_builds cfg bins).map (fun s => (StepSource.compile, s)))
        (taggedArtifactSteps is_dir true (enumFilter (fun a => a.is_global) arts))
        (enumFilter (fun a => !a.is_global) arts)
        (enumFilter_keys_nodup _ arts) ?_ ?_
        (taggedBuildSteps cfg is_dir bins arts) ?_ i j hi hj k hti htj hci hzj
      · intro x hx k' hx2
        rw [compile_tagged_tag cfg bins x hx] at hx2
        cases hx2
      · intro x hx k' hx2
        exact taggedArtifactSteps_tag_ne_flag is_dir true _ k' x hx hx2
      · rw [taggedBuildSteps]
    · refine tagged_copy_lt_zip_aux is_dir true
        ((compute_cargo_builds cfg bins).map (fun s => (StepSource.compile, s)) ++
          taggedArtifactSteps is_dir false (enumFilter (fun a => !a.is_global) arts))
        [] (enumFilter (fun a => a.is_global) arts)
        (enumFilter_keys_nodup _ arts) ?_ ?_
        (taggedBuildSteps cfg is_dir bins arts) ?_ i j hi hj k hti htj hci hzj
      · intro x hx k' hx2
        rcases List.mem_append.mp hx with h1 | h2
        · rw [compile_tagged_tag cfg bins x h1] at hx2
          cases hx2
        · exact taggedArtifactSteps_tag_ne_flag is_dir false _ k' x h2 hx2
      · intro x hx k' hx2
        cases hx
      · rw [taggedBuildSteps, List.append_nil, List.append_assoc]

/-- The build configuration of the C5 witness. -/
def c5Cfg : BuildConfig := ⟨true, "", "x86_64-unknown-linux-gnu", none⟩

/-- The single required binary of the C5 witness. -/
def c5Bins : List Binary :=
  [{ (default : Binary) with
      id := "my-app-v1.0.0-t1", pkg_spec := "my-app", target := "t1",
      copy_exe_to := ["dist/my-app-t1/my-app"] }]

/-- The C5 witness artifacts: one local executable zip with one static
asset, one global shell installer. -/
def c5Arts : List Artifact :=
  [{ (default : Artifact) with
      id := "my-app-t1.tar.xz",
      file_path := "dist/my-app-t1.tar.xz",
      archive := some ⟨some "my-app-t1", "dist/my-app-t1",
        ZipStyle.tar CompressionImpl.xzip, [(StaticAssetKind.readme, "README.md")]⟩ },
   { (default : Artifact) with
      id := "my-app-installer.sh",
      is_global := true,
      kind := ArtifactKind.installer (InstallerImpl.shell
        ⟨"dist/my-app-installer.sh", "my-app", "1.0.0", "i", "u", [], "h", "d"⟩) }]

/-- C5 (witness): on the concrete store the tagged list projects onto the
step list, the compile step (position 0) precedes the packaging step at
position 1, the local-artifact copy step (position 1) precedes the
global-artifact installer step (position 3), and the copy step precedes its
artifact's zip step (position 2). -/
theorem C5_build_step_ordering_witness :
    ((taggedBuildSteps c5Cfg (fun _ => false) c5Bins c5Arts).map Prod.snd =
      compute_build_steps c5Cfg (fun _ => false) c5Bins c5Arts) ∧
    (0 : Nat) < 1 ∧ (1 : Nat) < 3 ∧ (1 : Nat) < 2 := by
  refine ⟨(C5_build_step_ordering c5Cfg (fun _ => false) c5Bins c5Arts).1, ?_, ?_, ?_⟩
  · exact (C5_build_step_ordering c5Cfg (fun _ => false) c5Bins c5Arts).2.1
      0 1 (by decide) (by decide) (by decide) (by decide)
  · exact (C5_build_step_ordering c5Cfg (fun _ => false) c5Bins c5Arts).2.2.1
      1 3 (by decide) (by decide) 0 1 (by decide) (by decide)
  · exact (C5_build_step_ordering c5Cfg (fun _ => false) c5Bins c5Arts).2.2.2
      1 2 (by decide) (by decide) false 0 (by decide) (by decide) (by decide) (by decide)

end CargoDist
